import Mathlib

/-!
Verification development for the claim-matching and scoring engine of the
`claims_od_connector` module (`claimsMatchingOpenDental.py`).

The Python source is shallowly embedded: pure string/numeric helpers become
executable Lean functions over `List Char` / `String` / `ℚ` / `ℕ`; dictionary
records with `get`-cascades over alternative keys become explicit structures
holding the value the cascade would produce; currency amounts (Python floats
holding dollar values) are modelled as exact rationals; integer scores are `ℕ`.

The only parts of the engine that are not reproduced syntactically are
(a) the Python `re` regular-expression engine: the outcome of the two kinds of
regex searches the name scorer performs (nickname-aware first-name pattern and
plain name-part pattern) is abstracted as a `RegexOracle` of boolean-valued
functions, so every theorem below holds for every possible behaviour of the
regex engine; and
(b) the remote OpenDental API: the responses of the handful of endpoints the
orchestrator queries are abstracted as an `ApiEnv` of functions, so every
theorem holds for every possible collaborator response.
Inert payload fields that are copied verbatim from input records to output
records and never read by any logic verified here (ortho details, per-line
write-off/paid/deductible amounts, remarks, sent/received dates, carrier
names) are elided from the record types, with comments at each elision.
-/

attribute [local semireducible] Rat.add Rat.sub Rat.mul Rat.inv Rat.ofScientific

namespace PDE

/-! ## Basic string helpers (Python `str.strip`, `str.lower`, splitting) -/

/-- Whitespace characters recognised by Python `str.strip()` / `re` `\s`
(restricted to the ASCII whitespace occurring in this data domain). -/
def isWsCh (c : Char) : Bool :=
  c = ' ' || c = '\t' || c = '\n' || c = '\r'

/-- Python `str.strip()` on the character list. -/
def trimL (l : List Char) : List Char :=
  ((l.dropWhile isWsCh).reverse.dropWhile isWsCh).reverse

/-- Python `s.strip()`. -/
def pyStrip (s : String) : String :=
  String.mk (trimL s.data)

/-- Python `s.lower()` (ASCII domain). -/
def pyLower (s : String) : String :=
  String.mk (s.data.map Char.toLower)

/-- Python `s.strip().lower()`. -/
def pyStripLower (s : String) : String :=
  pyLower (pyStrip s)

/-- Truthiness test used throughout the source for name fields:
`s and s.strip()` — true iff the string is non-blank. -/
def nonblank (s : String) : Bool :=
  pyStrip s ≠ ""

/-- Splitting a character list into the non-empty groups separated by
delimiter characters; models `re.split(r'[..]+', s)` followed by the
source's removal of empty strings. -/
def splitTok (p : Char → Bool) (l : List Char) : List (List Char) :=
  let step : Char → List (List Char) → List (List Char) := fun c acc =>
    if p c then [] :: acc
    else
      match acc with
      | [] => [[c]]
      | t :: ts => (c :: t) :: ts
  (l.foldr step []).filter (fun t => t ≠ [])

/-- Apostrophe character (U+0027), written via its code point. -/
def aposCh : Char := Char.ofNat 39

/-- Delimiters of `re.split(r'[-\s\']+', ...)` used for name tokens. -/
def isNameDelim (c : Char) : Bool :=
  isWsCh c || c = '-' || c = aposCh

/-- Name-part splitting used for compound last names
(`re.split(r'[\s\'\-]+', crit_ln_q)` with empties removed). -/
def splitNameParts (s : String) : List String :=
  (splitTok isNameDelim s.data).map String.mk

/-- Python `s.split()` (split on whitespace, empties removed). -/
def splitWs (s : String) : List String :=
  (splitTok isWsCh s.data).map String.mk

/-! ## Calendar dates and `datetime.strptime(_, '%Y-%m-%d')` -/

/-- A parsed calendar date. -/
structure PDate where
  year : ℕ
  month : ℕ
  day : ℕ
deriving DecidableEq, Repr

/-- ASCII digit test (Python `str.isdigit` on the ASCII domain). -/
def isDigitCh (c : Char) : Bool :=
  '0' ≤ c && c ≤ '9'

/-- Python `str.isdigit()`: non-empty and all digits. -/
def isDigitsL (l : List Char) : Bool :=
  l ≠ [] && l.all isDigitCh

/-- Numeric value of a digit list. -/
def digitsToNat (l : List Char) : ℕ :=
  l.foldl (fun acc c => acc * 10 + (c.toNat - '0'.toNat)) 0

/-- Gregorian leap-year rule used by `datetime`. -/
def isLeapYear (y : ℕ) : Bool :=
  (y % 4 = 0 && y % 100 ≠ 0) || y % 400 = 0

/-- Days in a month of the Gregorian calendar. -/
def daysInMonth (y m : ℕ) : ℕ :=
  if m = 2 then (if isLeapYear y then 29 else 28)
  else if m = 4 || m = 6 || m = 9 || m = 11 then 30
  else 31

/-- Parser for `datetime.strptime(s, '%Y-%m-%d').date()`: three dash-separated
digit fields (year up to 4 digits, month/day up to 2), which must form a valid
calendar date in `datetime`'s supported range; `none` models the
`ValueError` raised on any malformed input. -/
def parseDate (s : String) : Option PDate :=
  match splitTok (fun c => c = '-') s.data with
  | [ys, ms, ds] =>
    if (s.data.filter (fun c => c = '-')).length = 2 &&
       isDigitsL ys && ys.length ≤ 4 && isDigitsL ms && ms.length ≤ 2 &&
       isDigitsL ds && ds.length ≤ 2 then
      let y := digitsToNat ys
      let m := digitsToNat ms
      let d := digitsToNat ds
      if 1 ≤ y && y ≤ 9999 && 1 ≤ m && m ≤ 12 && 1 ≤ d && d ≤ daysInMonth y m then
        some ⟨y, m, d⟩
      else none
    else none
  | _ => none

/-! ## Procedure-code normalization (`normalize_procedure_code`) -/

/-- The leading-zero stripping loop:
`while len(digits) > 4 and digits[0] == '0': digits = digits[1:]`. -/
def stripZeros4 : List Char → List Char
  | [] => []
  | c :: rest => if c = '0' ∧ 4 ≤ rest.length then stripZeros4 rest else c :: rest

/-- Core of `normalize_procedure_code` on the character list. -/
def normCodeL (l : List Char) : List Char :=
  match l with
  | [] => []
  | c :: rest =>
    if c = 'D' ∧ 5 < l.length ∧ isDigitsL rest then
      'D' :: (if 4 < rest.length then stripZeros4 rest else rest)
    else if c ≠ 'D' ∧ isDigitsL l then 'D' :: l
    else l

/-- `ClaimMatcher.normalize_procedure_code`. -/
def normalize_procedure_code (code : String) : String :=
  String.mk (normCodeL code.data)

/-! ## Levenshtein distance (`ClaimMatcher.levenshtein_distance`) -/

/-- Inner loop of the dynamic program: given the previous row (one entry
longer than the remaining suffix of `s2`) and the value already placed at the
left of the current row, produce the rest of the current row. -/
def levRow (c1 : Char) : List Char → List ℕ → ℕ → List ℕ
  | c2 :: cs, p0 :: p1 :: ps, left =>
    let v := min (p1 + 1) (min (left + 1) (p0 + (if c1 = c2 then 0 else 1)))
    v :: levRow c1 cs (p1 :: ps) v
  | _, _, _ => []

/-- The row-by-row dynamic program of `levenshtein_distance` (assumes
`s1` is the longer string, as arranged by the wrapper). -/
def levCore (s1 s2 : List Char) : ℕ :=
  if s2.length = 0 then s1.length
  else
    let init := List.range (s2.length + 1)
    let final := (s1.foldl
      (fun (st : List ℕ × ℕ) c1 =>
        let fv := st.2 + 1
        (fv :: levRow c1 s2 st.1 fv, fv)) (init, 0)).1
    final.getLastD 0

/-- `ClaimMatcher.levenshtein_distance` on character lists (the source first
swaps the arguments so that the first is the longer one). -/
def levenshteinL (s1 s2 : List Char) : ℕ :=
  if s1.length < s2.length then levCore s2 s1 else levCore s1 s2

/-! ## Name normalization (`ClaimMatcher.normalize_name_for_matching`) -/

/-- Honorific tokens dropped by `normalize_name_for_matching` (the dotted
variants are unreachable after the dot-splitting but kept for fidelity). -/
def namePrefixTokens : List String :=
  ["dr.", "dr", "mr.", "mr", "mrs.", "mrs", "ms.", "ms", "miss"]

/-- Generational suffix tokens dropped by `normalize_name_for_matching`. -/
def nameSuffixTokens : List String :=
  ["jr.", "jr", "sr.", "sr", "ii", "iii", "iv"]

/-- The ordered OCR substitution table of `normalize_name_for_matching`
(Python dict iteration preserves this insertion order). -/
def ocrFixes : List (String × String) :=
  [("0", "o"), ("1", "l"), ("5", "s"), ("8", "b"),
   ("rn", "m"), ("cl", "d"), ("vv", "w"), ("ii", "n"),
   ("ﬁ", "fi"), ("ﬂ", "fl"), ("oe", "ce"), ("ae", "a"),
   (".", ""), ("_", ""), ("|", "l"), ("\\", ""), ("/", "")]

/-- Decidable check that `pat` is an initial segment of `l`. -/
def leadsWith : List Char → List Char → Bool
  | [], _ => true
  | _ :: _, [] => false
  | a :: as, b :: bs => a = b && leadsWith as bs

/-- Python `str.replace(pat, rep)` for a non-empty `pat`: leftmost
non-overlapping occurrences, scanning resumes after the replacement.  The
fuel argument (instantiated with the input length) bounds the scan; every
step consumes at least one input character, so the semantics are exact. -/
def replFuel (pat rep : List Char) : ℕ → List Char → List Char
  | 0, l => l
  | _ + 1, [] => []
  | n + 1, c :: rest =>
    if pat ≠ [] ∧ leadsWith pat (c :: rest) then
      rep ++ replFuel pat rep n ((c :: rest).drop pat.length)
    else c :: replFuel pat rep n rest

/-- Apply all OCR substitutions in table order to one name part. -/
def applyOcrFixes (part : List Char) : List Char :=
  ocrFixes.foldl (fun acc pr => replFuel pr.1.data pr.2.data acc.length acc) part

/-- Collapse runs of a repeated character to one occurrence,
modelling `re.sub(r'(.)\1+', r'\1', s)`. -/
def collapseRuns : List Char → List Char
  | [] => []
  | [c] => [c]
  | a :: b :: rest =>
    if a = b then collapseRuns (b :: rest) else a :: collapseRuns (b :: rest)

/-- Per-part cleanup step of `normalize_name_for_matching`: OCR fixes, then
run-collapsing guarded so a token is never reduced below 2 characters. -/
def fixNamePart (part : List Char) : List Char :=
  let fixed := applyOcrFixes part
  if 2 < fixed.length then
    let dd := collapseRuns fixed
    if 2 ≤ dd.length then dd else fixed
  else fixed

/-- Delimiters of `re.split(r'[\s\-\'\.]+', normalized)`. -/
def isNormSplitCh (c : Char) : Bool :=
  isWsCh c || c = '-' || c = aposCh || c = '.'

/-- Join token lists with single spaces (`' '.join(result_parts)`). -/
def joinSpace : List (List Char) → List Char
  | [] => []
  | [x] => x
  | x :: xs => x ++ ' ' :: joinSpace xs

/-- `ClaimMatcher.normalize_name_for_matching`. -/
def normalize_name_for_matching (name : String) : String :=
  if pyStrip name = "" then ""
  else
    let normalized := (pyLower (pyStrip name)).data
    let parts := splitTok isNormSplitCh normalized
    if parts = [] then ""
    else
      let cleaned := parts.filter (fun p =>
        ¬ namePrefixTokens.contains (String.mk p) ∧
        ¬ nameSuffixTokens.contains (String.mk p))
      let cleanedParts := if cleaned = [] then parts else cleaned
      String.mk (joinSpace (cleanedParts.map fixNamePart))

/-! ## Enhanced similarity (`ClaimMatcher.calculate_enhanced_similarity`) -/

/-- Result record of `calculate_enhanced_similarity`. -/
structure SimResult where
  similarity : ℚ
  matchTy : String
  score : ℕ
deriving DecidableEq, Repr

/-- Vowel test of the coarse phonetic code. -/
def isVowelCh (c : Char) : Bool :=
  c = 'a' || c = 'e' || c = 'i' || c = 'o' || c = 'u'

/-- The `simple_soundex` helper nested in `calculate_enhanced_similarity`:
keep the first letter, drop vowels, skip a consonant equal to the last kept
character, truncate to 4 and right-pad with `'0'`. -/
def simple_soundex (name : List Char) : List Char :=
  match name with
  | [] => []
  | c0 :: rest =>
    let r := rest.foldl
      (fun acc ch =>
        if ¬ isVowelCh ch ∧ (acc = [] ∨ acc.getLast? ≠ some ch) then acc ++ [ch]
        else acc) [c0]
    let t := r.take 4
    t ++ List.replicate (4 - t.length) '0'

/-- Decidable contiguous-substring test (Python `shorter in longer`). -/
def isSubstr (n : List Char) : List Char → Bool
  | [] => n = []
  | c :: rest => leadsWith n (c :: rest) || isSubstr n rest

/-- Decidable suffix test (Python `longer.endswith(shorter)`). -/
def endsWithL (n h : List Char) : Bool :=
  leadsWith n.reverse h.reverse

/-- Final tier selection of `calculate_enhanced_similarity` from the
Levenshtein similarity, the character-set (Jaccard) overlap and the phonetic
equality flag (the trailing `if`/`elif` ladder of the source). -/
def simTier (lsim overlap : ℚ) (ph : Bool) : SimResult :=
  if 9/10 ≤ lsim then ⟨lsim, "high_similarity", 12⟩
  else if 8/10 ≤ lsim then ⟨lsim, "good_similarity", 10⟩
  else if 7/10 ≤ lsim then ⟨lsim, "fair_similarity", 8⟩
  else if 6/10 ≤ lsim then ⟨lsim, "weak_similarity", 5⟩
  else if ph ∧ 1/2 < overlap then ⟨6/10, "phonetic_match", 6⟩
  else if 7/10 < overlap then ⟨overlap, "character_overlap", 4⟩
  else ⟨lsim, "poor_match", 0⟩

/-- Substring/truncation tier of `calculate_enhanced_similarity`. -/
def simTruncTier (shorter longer : List Char) : SimResult :=
  if leadsWith shorter longer then ⟨95/100, "prefix_truncation", 12⟩
  else if endsWithL shorter longer then ⟨95/100, "suffix_truncation", 12⟩
  else ⟨85/100, "substring_truncation", 10⟩

/-- `ClaimMatcher.calculate_enhanced_similarity`. -/
def calculate_enhanced_similarity (name1 name2 : String) : SimResult :=
  if name1 = "" ∨ name2 = "" then ⟨0, "no_data", 0⟩
  else
    let norm1 := (normalize_name_for_matching name1).data
    let norm2 := (normalize_name_for_matching name2).data
    if norm1 = [] ∨ norm2 = [] then ⟨0, "empty_after_norm", 0⟩
    else if norm1 = norm2 then ⟨1, "exact_normalized", 15⟩
    else
      let shorter := if norm1.length < norm2.length then norm1 else norm2
      let longer := if norm1.length < norm2.length then norm2 else norm1
      if 2 ≤ shorter.length ∧ isSubstr shorter longer then simTruncTier shorter longer
      else
        let dist := levenshteinL norm1 norm2
        let maxLen := max norm1.length norm2.length
        let lsim : ℚ := if maxLen ≠ 0 then 1 - (dist : ℚ) / maxLen else 0
        let chars1 := norm1.toFinset
        let chars2 := norm2.toFinset
        let u := chars1 ∪ chars2
        let overlap : ℚ := if u.card ≠ 0 then ((chars1 ∩ chars2).card : ℚ) / u.card else 0
        let ph := simple_soundex norm1 = simple_soundex norm2
        simTier lsim overlap ph

/-! ## Nickname mapper (`NicknameMapper`) -/

/-- The fixed `NICKNAME_GROUPS` table (order matters: the reverse-lookup
dictionary is built iterating the groups in order, a later group overriding
an earlier one for a name occurring in both). -/
def nicknameGroups : List (List String) :=
  [["william", "will", "bill", "billy", "willy", "liam"],
   ["robert", "rob", "bob", "bobby", "robbie", "bert"],
   ["richard", "rich", "rick", "ricky", "dick", "richie"],
   ["michael", "mike", "mikey", "mick", "mickey", "miguel"],
   ["james", "jim", "jimmy", "jamie", "jimbo"],
   ["john", "johnny", "jack", "jackie", "jon"],
   ["joseph", "joe", "joey", "jose"],
   ["thomas", "tom", "tommy", "thom"],
   ["charles", "charlie", "chuck", "chas", "chaz"],
   ["christopher", "chris", "kit", "topher"],
   ["matthew", "matt", "matty"],
   ["anthony", "tony", "ant"],
   ["daniel", "dan", "danny"],
   ["david", "dave", "davey"],
   ["kenneth", "ken", "kenny"],
   ["stephen", "steve", "steven", "stevie"],
   ["andrew", "andy", "drew"],
   ["edward", "ed", "eddie", "ted", "teddy", "ned"],
   ["lawrence", "larry", "lars"],
   ["samuel", "sam", "sammy"],
   ["benjamin", "ben", "benny", "benji"],
   ["alexander", "alex", "al", "xander", "lex"],
   ["nicholas", "nick", "nicky", "nico"],
   ["elizabeth", "liz", "lizzie", "beth", "betty", "betsy", "eliza", "lisa"],
   ["margaret", "maggie", "meg", "peggy", "marge", "margie", "greta"],
   ["katherine", "kate", "katie", "kathy", "kat", "kitty", "catherine", "cathy"],
   ["patricia", "pat", "patty", "patsy", "trish", "tricia"],
   ["jennifer", "jen", "jenny"],
   ["jessica", "jess", "jessie"],
   ["deborah", "deb", "debbie", "debby"],
   ["susan", "sue", "susie", "suzy"],
   ["dorothy", "dot", "dottie", "dolly"],
   ["barbara", "barb", "barbie", "babs"],
   ["rebecca", "becca", "becky"],
   ["christine", "chris", "chrissy", "tina"],
   ["victoria", "vicky", "vic", "tori"],
   ["alexandra", "alex", "lexi", "lexie", "sandra", "sandy"],
   ["stephanie", "steph", "stephie"],
   ["michelle", "shelly", "michi"],
   ["kimberly", "kim", "kimmy"],
   ["abigail", "abby", "gail"],
   ["amanda", "mandy", "manda"],
   ["angela", "angie", "angel"],
   ["francisco", "frank", "pancho", "paco", "cisco"],
   ["guadalupe", "lupe", "lupita"],
   ["jose", "pepe", "joe"],
   ["ignacio", "nacho"],
   ["rafael", "rafa"],
   ["enrique", "henry", "quique"],
   ["guillermo", "william", "memo"],
   ["alejandro", "alex", "alejo"],
   ["roberto", "robert", "beto"],
   ["gerald", "gerry", "jerry"],
   ["raymond", "ray"],
   ["ronald", "ron", "ronnie"],
   ["donald", "don", "donnie"],
   ["harold", "harry", "hal"],
   ["francis", "frank", "fran"],
   ["eugene", "gene"],
   ["phillip", "phil", "philip"],
   ["timothy", "tim", "timmy"],
   ["gregory", "greg", "gregg"]]

/-- The reverse lookup `_nickname_to_group` as a function: index of the last
group containing the (lowercased) name, mirroring dictionary overwrites
during `_build_lookup_tables`. -/
def nicknameGroupIdx (name : String) : Option ℕ :=
  (List.range nicknameGroups.length).foldl
    (fun acc i => if (nicknameGroups.getD i []).contains name then some i else acc)
    none

/-- `NicknameMapper.get_name_variations`. -/
def get_name_variations (name : String) : List String :=
  let nl := pyStripLower name
  match nicknameGroupIdx nl with
  | some i => nl :: nicknameGroups.getD i []
  | none => [nl]

/-- `NicknameMapper.are_names_related`. -/
def are_names_related (n1 n2 : String) : Bool :=
  let a := pyStripLower n1
  let b := pyStripLower n2
  if a = "" ∨ b = "" then false
  else (get_name_variations a).any (fun x => (get_name_variations b).contains x)

/-! ## Name score (`_calculate_name_match_score_with_nicknames`)

The two regex constructions (`_build_regex_for_name_with_nicknames` searched
against the claim first name, and `_build_regex_for_name_part` searched
against the claim last name or one of its parts) are abstracted as an oracle
of boolean functions; every theorem below is proved for every oracle, i.e.
for every possible behaviour of the regex engine. -/

/-- Oracle abstracting Python's `re` searches in the name scorer.  Each
field takes the (already lowercased and stripped) query and the candidate
string and returns whether `re.search` finds a match. -/
structure RegexOracle where
  nicknameRegexSearch : String → String → Bool
  namePartRegexSearch : String → String → Bool

/-- Last-name component of the name score: full-pattern match (15), else a
match of one part of a compound criteria last name (15), else the enhanced
similarity bonus (0–15).  A claim without a last name scores 0 here. -/
def calcLnScore (O : RegexOracle) (critLnQ claimLnClean : String) : ℕ :=
  if claimLnClean = "" then 0
  else if O.namePartRegexSearch critLnQ claimLnClean then 15
  else
    let parts := splitNameParts critLnQ
    if 1 < parts.length ∧ parts.any (fun p => O.namePartRegexSearch p claimLnClean) then 15
    else
      let e := calculate_enhanced_similarity critLnQ claimLnClean
      if 0 < e.score then e.score else 0

/-- `ClaimMatcher._calculate_name_match_score_with_nicknames`: 0–15 points
for the first name (nickname relation or nickname-aware regex; a first-name
failure zeroes the whole score) plus 0–15 for the last name; with no criteria
last name, a matched first name is awarded the full last-name component. -/
def calculate_name_match_score_with_nicknames
    (O : RegexOracle) (claimFn claimLn critFnQraw critLnQraw : String) : ℕ :=
  if critFnQraw = "" then 0
  else
    let critFnQ := pyStripLower critFnQraw
    let critLnQ := pyStripLower critLnQraw
    if critFnQ = "" then 0
    else
      let claimFnClean := pyStripLower claimFn
      let claimLnClean := pyStripLower claimLn
      if claimFnClean = "" then 0
      else if are_names_related critFnQ claimFnClean ∨
              O.nicknameRegexSearch critFnQ claimFnClean then
        if critLnQ ≠ "" then 15 + calcLnScore O critLnQ claimLnClean
        else 15 + 15
      else 0

/-- The name gate with its swap fallback, as inlined identically in
`_score_api_claim_candidate` (lines 585–614) and `filter_cached_claims`
(lines 993–1023): score the criteria name; if below 20, rescore once with
the criteria first and last names swapped; `none` means rejection. -/
def nameGate (O : RegexOracle) (claimFn claimLn critFn critLn : String) : Option ℕ :=
  let s1 := calculate_name_match_score_with_nicknames O claimFn claimLn critFn critLn
  if 20 ≤ s1 then some s1
  else
    let s2 := calculate_name_match_score_with_nicknames O claimFn claimLn critLn critFn
    if 20 ≤ s2 then some s2 else none

/-! ## Procedure-code overlap (`_match_procedure_codes`) -/

/-- Match percentage of `ClaimMatcher._match_procedure_codes` (the
`matched_codes` entry of the returned dict is never read by the engine and
is elided).  Empty input gives 0; two lists that each de-duplicate to a
single code whose normalizations agree give 1; otherwise the normalized
intersection is divided by the normalized payment-code set. -/
def match_procedure_codes (paymentCodes dbCodes : List String) : ℚ :=
  if paymentCodes = [] ∨ dbCodes = [] then 0
  else if paymentCodes.toFinset.card = 1 ∧ dbCodes.toFinset.card = 1 ∧
          normalize_procedure_code (paymentCodes.headD "") =
            normalize_procedure_code (dbCodes.headD "") then 1
  else
    let np := paymentCodes.toFinset.image normalize_procedure_code
    let nd := dbCodes.toFinset.image normalize_procedure_code
    if np.card ≠ 0 then ((np ∩ nd).card : ℚ) / np.card else 0

/-! ## Override paths (fee-array and procedure-count) -/

/-- One claim-procedure line, for both cached and API-sourced procedure
dictionaries; `codeSent` and `feeBilled` hold the value of the source's
key cascades (`proc_code`/`code`/`CodeSent`, `fee_billed`/`FeeBilled`).
The remaining per-line payload (write-off, paid amount, deductible, status,
remarks, tooth number, UCR fields) is copied verbatim to outputs and never
read by the matching logic, so it is elided. -/
structure ClaimProcRec where
  codeSent : String
  feeBilled : ℚ
  claimProcNum : ℕ
deriving DecidableEq, Repr

/-- `ProcedurePayment` (one EOB line). -/
structure ProcedurePayment where
  proc_code : String
  submitted_amt : ℚ
  amount_paid : ℚ
  remarks : String
  deductible : ℚ
  writeoff : ℚ
  markAsNotReceived : Bool
deriving DecidableEq, Repr

/-- `PaymentInfo` (the remittance payload).  The optional check fields are
never read by the matching engine and are elided. -/
structure PaymentInfo where
  procedures : List ProcedurePayment
deriving DecidableEq, Repr

/-- `SearchCriteria`. -/
structure SearchCriteria where
  date_of_service : String
  patient_first_name : String
  patient_last_name : String
  subscriber_first_name : String
  subscriber_last_name : String
  payment_info : PaymentInfo
deriving DecidableEq, Repr

/-- Ascending insertion of a rational into a sorted list. -/
def insertAsc (a : ℚ) : List ℚ → List ℚ
  | [] => [a]
  | b :: bs => if a ≤ b then a :: b :: bs else b :: insertAsc a bs

/-- Python `sorted` on a list of fee amounts (ascending). -/
def sortAsc : List ℚ → List ℚ
  | [] => []
  | a :: as => insertAsc a (sortAsc as)

/-- Per-pair fee comparison of the fee-array override: a pair matches when
the absolute difference is at most one dollar, or the difference divided by
the larger fee (0 when that maximum is not positive) is at most 2%. -/
def feePairMatches (a b : ℚ) : Bool :=
  let d := |a - b|
  let r := if 0 < max a b then d / max a b else 0
  d ≤ 1 ∨ r ≤ 2/100

/-- `ClaimMatcher._has_strong_non_procedure_match_with_fees`: the fee-array
(alternate-benefit) override.  Requires exact date match, name score at
least 25, non-empty positive-fee lists of equal length on both sides, and at
least 80% of the pairs (after sorting both fee lists ascending) matching. -/
def has_strong_non_procedure_match_with_fees
    (claimDate targetDate : PDate) (nameScore : ℕ)
    (claimProcedures : List ClaimProcRec) (eobProcedures : List ProcedurePayment) : Bool :=
  if claimDate ≠ targetDate then false
  else if nameScore < 25 then false
  else if claimProcedures = [] ∨ eobProcedures = [] then false
  else
    let pmsFees := claimProcedures.filterMap
      (fun p => if 0 < p.feeBilled then some p.feeBilled else none)
    let eobFees := eobProcedures.filterMap
      (fun p => if 0 < p.submitted_amt then some p.submitted_amt else none)
    if pmsFees = [] ∨ eobFees = [] then false
    else
      let ps := sortAsc pmsFees
      let es := sortAsc eobFees
      if ps.length ≠ es.length then false
      else
        let pairs := ps.zip es
        let feeMatches := (pairs.filter (fun ab => feePairMatches ab.1 ab.2)).length
        4/5 ≤ (feeMatches : ℚ) / pairs.length

/-- `ClaimMatcher._has_procedure_count_match`: the procedure-count override.
Requires exact date match, name score at least 20, and equal procedure-line
counts (with two empty sides also counting as a match). -/
def has_procedure_count_match
    (claimDate targetDate : PDate) (nameScore : ℕ)
    (claimProcedures : List ClaimProcRec) (eobProcedures : List ProcedurePayment) : Bool :=
  if claimDate ≠ targetDate then false
  else if nameScore < 20 then false
  else
    let c := claimProcedures.length
    let e := eobProcedures.length
    if c = 0 ∧ e = 0 then true
    else c = e ∧ 0 < c

/-! ## Output record (`ClaimMatch`) and result prioritization -/

/-- The `ClaimMatch` output record.  `date_sent`, `date_received`,
`claim_note`, ortho fields and the carrier name are verbatim pass-through
payload never read by the verified logic and are elided. -/
structure ClaimMatch where
  claim_num : ℕ
  pat_num : ℕ
  claim_fee : ℚ
  date_of_service : String
  is_secondary : Bool
  has_secondary_plan : Bool
  has_pending_secondary : Bool
  match_score : Option ℕ
  match_source : String
  claim_procs : List ClaimProcRec
  is_supplemental : Bool
  claim_status : String
deriving DecidableEq, Repr

/-- Setting `has_pending_secondary = True` on a primary match. -/
def setPendingTrue (m : ClaimMatch) : ClaimMatch :=
  { m with has_pending_secondary := true }

/-- Descending insertion by a natural-number key. -/
def insertDescBy {α : Type} (key : α → ℕ) (a : α) : List α → List α
  | [] => [a]
  | b :: bs => if key b < key a then a :: b :: bs else b :: insertDescBy key a bs

/-- Python `sorted(_, key=.., reverse=True)` (tie order is immaterial to
every property proved here). -/
def sortDescBy {α : Type} (key : α → ℕ) : List α → List α
  | [] => []
  | a :: as => insertDescBy key a (sortDescBy key as)

/-- The primary/secondary prioritization shared verbatim by the ends of
`filter_cached_claims` (lines 1218–1247) and `find_matching_claims`
(lines 1546–1560): if primaries and secondaries both exist, flag every
primary with `has_pending_secondary` and return primaries followed by
secondaries; otherwise return whichever group is non-empty. -/
def prioritizeMatches (ms : List ClaimMatch) : List ClaimMatch :=
  let prim := ms.filter (fun m => !m.is_secondary)
  let sec := ms.filter (fun m => m.is_secondary)
  if prim = [] then sec
  else if sec = [] then prim
  else prim.map setPendingTrue ++ sec

/-! ## Cache path (`filter_cached_claims`) -/

/-- A cached (database) claim record.  Each field holds the value of the
source's `get`-cascade over alternative dictionary keys; the string/bool
coercions of `is_secondary` and `IsOrtho` collapse to plain booleans.
Ortho details, sent/received dates and the claim note are elided
pass-through payload. -/
structure CachedClaim where
  claim_num : ℕ
  pat_num : ℕ
  date_of_service : String
  claim_status : String
  patient_first_name : String
  patient_last_name : String
  subscriber_first_name : String
  subscriber_last_name : String
  procedures : List ClaimProcRec
  claim_fee : ℚ
  is_secondary : Bool
  plan_type : String
  claim_type : String
  has_secondary_plan : Bool
  is_supplemental : Bool
deriving DecidableEq, Repr

/-- The subscriber-corroboration bonus ladder of `filter_cached_claims`
(lines 1101–1108): +15 for a perfect subscriber name score, +8 for a score
of at least 15, else +0. -/
def subscriberBonus (s : ℕ) : ℕ :=
  if s = 30 then 15 else if 15 ≤ s then 8 else 0

/-- Match-source determination of `filter_cached_claims` (lines 1164–1185):
when an override fired and the procedure match was at most 49%, the
procedure-count condition is re-tested first and decides between
`database_count_match` and `database_alternate_benefit`. -/
def determineCacheMatchSource (overrideFired : Bool) (pct : ℚ) (countMatch : Bool) : String :=
  if overrideFired then
    if pct ≤ 49/100 then
      if countMatch then "database_count_match" else "database_alternate_benefit"
    else "database_alternate_benefit"
  else "database_strict"

/-- The four-way procedure-percentage chain shared by the cache path
(lines 1038–1049) and the API scorer (lines 620–644): both sides empty
counts as a perfect match, one empty side as a mismatch, otherwise the
overlap percentage of `_match_procedure_codes`. -/
def procMatchPct (paymentCodes dbCodes : List String) : ℚ :=
  if paymentCodes = [] ∧ dbCodes = [] then 1
  else if paymentCodes ≠ [] ∧ dbCodes = [] then 0
  else if paymentCodes = [] ∧ dbCodes ≠ [] then 0
  else match_procedure_codes paymentCodes dbCodes

/-- Normalized code extraction from cached procedure lines (codes that are
present, normalized). -/
def normalizedCodes (procs : List ClaimProcRec) : List String :=
  procs.filterMap
    (fun p => if p.codeSent ≠ "" then some (normalize_procedure_code p.codeSent) else none)

/-- The subscriber-corroboration bonus computation of `filter_cached_claims`
(lines 1083–1112): only when criteria and cached claim both carry a
non-blank subscriber name is the subscriber pair scored and the bonus
ladder applied. -/
def cacheSubBonus (O : RegexOracle) (criteria : SearchCriteria) (c : CachedClaim) : ℕ :=
  if nonblank criteria.subscriber_first_name ∧ nonblank criteria.subscriber_last_name ∧
     nonblank c.subscriber_first_name ∧ nonblank c.subscriber_last_name then
    subscriberBonus (calculate_name_match_score_with_nicknames O
      (pyStrip c.subscriber_first_name) (pyStrip c.subscriber_last_name)
      criteria.subscriber_first_name criteria.subscriber_last_name)
  else 0

/-- Evaluation of one cached claim inside the loop of
`filter_cached_claims` (lines 939–1207): date gate, status gate (`S`/`H`,
or `R` for a primary), name gate with swap fallback, procedure gate with
the two override paths, subscriber bonus, and construction of the
`ClaimMatch`.  `none` models `continue` (the claim is skipped). -/
def evalCachedClaim (O : RegexOracle) (critFn critLn : String) (targetDate : PDate)
    (paymentCodes : List String) (criteria : SearchCriteria) (c : CachedClaim) :
    Option ClaimMatch :=
  if c.date_of_service = "" then none
  else match parseDate c.date_of_service with
  | none => none
  | some claimDate =>
    if claimDate ≠ targetDate then none
    else if ¬ (c.claim_status = "S" ∨ c.claim_status = "H" ∨
               (c.claim_status = "R" ∧ c.is_secondary = false)) then none
    else if c.patient_first_name = "" ∨ c.patient_last_name = "" then none
    else match nameGate O c.patient_first_name c.patient_last_name critFn critLn with
    | none => none
    | some nameScore =>
      if procMatchPct paymentCodes (normalizedCodes c.procedures) ≤ 49/100 ∧
         ¬ has_strong_non_procedure_match_with_fees claimDate targetDate nameScore
             c.procedures criteria.payment_info.procedures ∧
         ¬ has_procedure_count_match claimDate targetDate nameScore
             c.procedures criteria.payment_info.procedures then none
      else
        some
          { claim_num := c.claim_num
            pat_num := c.pat_num
            claim_fee := c.claim_fee
            date_of_service := c.date_of_service
            is_secondary := c.is_secondary || c.plan_type = "S" || c.claim_type = "S"
            has_secondary_plan := c.has_secondary_plan
            has_pending_secondary := false
            match_score := some (30 + 10 + nameScore + 30 + cacheSubBonus O criteria c)
            match_source := determineCacheMatchSource
              (decide (procMatchPct paymentCodes (normalizedCodes c.procedures) ≤ 49/100 ∧
                (has_strong_non_procedure_match_with_fees claimDate targetDate nameScore
                   c.procedures criteria.payment_info.procedures ∨
                 has_procedure_count_match claimDate targetDate nameScore
                   c.procedures criteria.payment_info.procedures)))
              (procMatchPct paymentCodes (normalizedCodes c.procedures))
              (has_procedure_count_match claimDate targetDate nameScore
                c.procedures criteria.payment_info.procedures)
            claim_procs := c.procedures.filterMap (fun p =>
              if p.codeSent ≠ "" then
                some { p with codeSent := normalize_procedure_code p.codeSent }
              else none)
            is_supplemental := c.is_supplemental
            claim_status := c.claim_status }

/-- `ClaimMatcher.filter_cached_claims`: the full cache path.  Returns `[]`
for an empty cache, an unparseable criteria date, or criteria without a
usable (patient or subscriber) name; otherwise evaluates every cached claim,
sorts the passing matches by score descending and prioritizes
primary/secondary. -/
def filter_cached_claims (O : RegexOracle) (criteria : SearchCriteria)
    (dbClaims : List CachedClaim) : List ClaimMatch :=
  if dbClaims = [] then []
  else match parseDate criteria.date_of_service with
  | none => []
  | some targetDate =>
    let critName : Option (String × String) :=
      if nonblank criteria.patient_first_name ∧ nonblank criteria.patient_last_name then
        some (criteria.patient_first_name, criteria.patient_last_name)
      else if nonblank criteria.subscriber_first_name ∧ nonblank criteria.subscriber_last_name then
        some (criteria.subscriber_first_name, criteria.subscriber_last_name)
      else none
    match critName with
    | none => []
    | some (critFn, critLn) =>
      let paymentCodes := criteria.payment_info.procedures.filterMap
        (fun p => if p.proc_code ≠ "" then some (normalize_procedure_code p.proc_code) else none)
      let potential := dbClaims.filterMap (evalCachedClaim O critFn critLn targetDate paymentCodes criteria)
      prioritizeMatches (sortDescBy (fun m => m.match_score.getD 0) potential)

/-! ## Remote path (`find_matching_claims`) and the API scorer -/

/-- Patient details as returned by the patient endpoints (`FName`/`LName`
and `PatNum`). -/
structure PatientDetails where
  patNum : ℕ
  fName : String
  lName : String
deriving DecidableEq, Repr

/-- An API claim record.  `ClaimNum`/`PatNum` are 0 when the field is
missing (Python falsy).  Ortho fields, notes, sent/received dates and
carrier data are elided pass-through payload. -/
structure ApiClaim where
  claimNum : ℕ
  patNum : ℕ
  dateService : String
  claimStatus : String
  claimType : String
  claimFee : ℚ
  insSubNum2 : ℕ
  planNum2 : ℕ
deriving DecidableEq, Repr

/-- Environment abstracting the remote OpenDental collaborator: each field
models one endpoint family queried by the orchestrator.  `patientEntity` and
`subscriberEntity` summarise `_get_entity_data` (patient/subscriber search
with its own escalation ladder, plus the claims / active-subscription
retrieval); `none` models an empty `{}` result. -/
structure ApiEnv where
  patientEntity : String → String → Option (PatientDetails × List ApiClaim)
  subscriberEntity : String → String → Option (PatientDetails × Option ℕ)
  claimsForInsSub : ℕ → List ApiClaim
  patientByNum : ℕ → Option PatientDetails
  claimProcs : ℕ → List ClaimProcRec
  patplansLen : ℕ → Option ℕ

/-- `ClaimMatcher._check_secondary_insurance`: initial flag from
`InsSubNum2`/`PlanNum2`, double-checked against the `/patplans` count when
available (`none` models a non-list response or an error, which keeps the
initial value). -/
def check_secondary_insurance (env : ApiEnv) (c : ApiClaim) : Bool :=
  let initial := 0 < c.insSubNum2 ∨ 0 < c.planNum2
  if initial then
    if c.patNum ≠ 0 then
      match env.patplansLen c.patNum with
      | some n => if n ≤ 1 then false else true
      | none => true
    else true
  else false

/-- `ClaimMatcher._score_api_claim_candidate`: date gate (exact match of the
parsed dates, parse failure rejecting), status gate (`S` or `H`), name gate
with swap fallback, procedure gate (> 49% overlap, else the fee-array
override then the count override).  Returns
`(score, used_alternate_benefit, override_type)` with score 0 on rejection. -/
def score_api_claim_candidate (O : RegexOracle) (apiClaim : ApiClaim)
    (claimProceduresFromApi : List ClaimProcRec) (criteria : SearchCriteria)
    (claimOwner : PatientDetails) : ℕ × Bool × String :=
  match parseDate apiClaim.dateService, parseDate criteria.date_of_service with
  | some claimDate, some targetDate =>
    if claimDate ≠ targetDate then (0, false, "")
    else if ¬ (apiClaim.claimStatus = "S" ∨ apiClaim.claimStatus = "H") then (0, false, "")
    else match nameGate O claimOwner.fName claimOwner.lName
                 criteria.patient_first_name criteria.patient_last_name with
    | none => (0, false, "")
    | some nameScore =>
      if criteria.payment_info.procedures ≠ [] ∧ claimProceduresFromApi ≠ [] then
        let paymentCodes := criteria.payment_info.procedures.map (fun p => p.proc_code)
        let apiCodes := claimProceduresFromApi.map
          (fun p => normalize_procedure_code p.codeSent)
        let pct : ℚ := procMatchPct paymentCodes apiCodes
        if 49/100 < pct then (30 + 10 + nameScore + 30, false, "")
        else if has_strong_non_procedure_match_with_fees claimDate targetDate nameScore
               claimProceduresFromApi criteria.payment_info.procedures then
          (30 + 10 + nameScore + 30, true, "fee_match")
        else if has_procedure_count_match claimDate targetDate nameScore
               claimProceduresFromApi criteria.payment_info.procedures then
          (30 + 10 + nameScore + 30, true, "count_match")
        else (0, false, "")
      else if criteria.payment_info.procedures = [] ∧ claimProceduresFromApi = [] then
        (30 + 10 + nameScore + 30, false, "")
      else (0, false, "")
  | _, _ => (0, false, "")

/-- A scored API candidate awaiting prioritization (stage-3 input). -/
structure ScoredCandidate where
  score : ℕ
  claim : ApiClaim
  procs : List ClaimProcRec
  ownerDetails : PatientDetails
  usedAlternateBenefit : Bool
  overrideType : String
deriving DecidableEq, Repr

/-- The quick date/status pre-filter applied to every API claim before
scoring (parse failure skips the claim). -/
def apiPreFilter (targetDate : PDate) (c : ApiClaim) : Bool :=
  match parseDate c.dateService with
  | some d => d = targetDate && (c.claimStatus = "S" || c.claimStatus = "H")
  | none => false

/-- Stage 1 of `find_matching_claims`: patient-based candidate collection.
Returns the scored candidates and the set of processed claim numbers. -/
def stage1Candidates (env : ApiEnv) (O : RegexOracle) (criteria : SearchCriteria)
    (targetDate : PDate) : List ScoredCandidate × List ℕ :=
  if nonblank criteria.patient_first_name ∧ nonblank criteria.patient_last_name then
    match env.patientEntity criteria.patient_last_name criteria.patient_first_name with
    | some (pat, claims) =>
      if claims = [] then ([], [])
      else claims.foldl
        (fun (acc : List ScoredCandidate × List ℕ) c =>
          if c.claimNum = 0 ∨ c.claimNum ∈ acc.2 then acc
          else if ¬ apiPreFilter targetDate c then acc
          else
            let procs := env.claimProcs c.claimNum
            let r := score_api_claim_candidate O c procs criteria pat
            if 0 < r.1 then
              (acc.1 ++ [⟨r.1, c, procs, pat, r.2.1, r.2.2⟩], acc.2 ++ [c.claimNum])
            else acc)
        ([], [])
    | none => ([], [])
  else ([], [])

/-- Stage 2 of `find_matching_claims`: subscriber-based candidate collection
(fetch claims by active insurance subscription, resolve each claim's owning
patient before scoring), continuing the processed-claim-number set. -/
def stage2Candidates (env : ApiEnv) (O : RegexOracle) (criteria : SearchCriteria)
    (targetDate : PDate) (processed : List ℕ) : List ScoredCandidate :=
  if nonblank criteria.subscriber_first_name ∧ nonblank criteria.subscriber_last_name then
    match env.subscriberEntity criteria.subscriber_last_name criteria.subscriber_first_name with
    | some (_, some insSubNum) =>
      let claims := env.claimsForInsSub insSubNum
      if claims = [] then []
      else (claims.foldl
        (fun (acc : List ScoredCandidate × List ℕ) c =>
          if c.claimNum = 0 ∨ c.claimNum ∈ acc.2 then acc
          else if ¬ apiPreFilter targetDate c then acc
          else if c.patNum = 0 then acc
          else match env.patientByNum c.patNum with
          | none => acc
          | some owner =>
            let procs := env.claimProcs c.claimNum
            let r := score_api_claim_candidate O c procs criteria owner
            if 0 < r.1 then
              (acc.1 ++ [⟨r.1, c, procs, owner, r.2.1, r.2.2⟩], acc.2 ++ [c.claimNum])
            else acc)
        ([], processed)).1
    | _ => []
  else []

/-- Construction of the `ClaimMatch` from a high-confidence API candidate
(lines 1459–1539): secondary from `ClaimType == 'S'`, secondary-plan flag
from `_check_secondary_insurance`, source tag from the override type, and
the candidate's score. -/
def buildApiMatch (env : ApiEnv) (cand : ScoredCandidate) : ClaimMatch :=
  { claim_num := cand.claim.claimNum
    pat_num := cand.claim.patNum
    claim_fee := cand.claim.claimFee
    date_of_service := cand.claim.dateService
    is_secondary := cand.claim.claimType = "S"
    has_secondary_plan := check_secondary_insurance env cand.claim
    has_pending_secondary := false
    match_score := some cand.score
    match_source :=
      if cand.usedAlternateBenefit then
        if cand.overrideType = "count_match" then "api_count_match"
        else "api_alternate_benefit"
      else "api_strict_scored"
    claim_procs := cand.procs.map
      (fun p => { p with codeSent := normalize_procedure_code p.codeSent })
    is_supplemental := false
    claim_status := cand.claim.claimStatus }

/-- `ClaimMatcher.find_matching_claims`: the remote two-stage path.
Unparseable criteria date aborts with `[]`; candidates from both stages are
filtered by the minimum acceptable score 89, sorted descending, converted to
`ClaimMatch` records and prioritized primary/secondary. -/
def find_matching_claims (env : ApiEnv) (O : RegexOracle)
    (criteria : SearchCriteria) : List ClaimMatch :=
  match parseDate criteria.date_of_service with
  | none => []
  | some targetDate =>
    let s1 := stage1Candidates env O criteria targetDate
    let s2 := stage2Candidates env O criteria targetDate s1.2
    let allCands := s1.1 ++ s2
    let highConfidence := allCands.filter (fun cand => 89 ≤ cand.score)
    if highConfidence = [] then []
    else
      prioritizeMatches
        ((sortDescBy (fun cand => cand.score) highConfidence).map (buildApiMatch env))

/-! ## Supplemental fallback (`find_matching_claims_api_fallback`) -/

/-- `ClaimMatcher.find_matching_claims_api_fallback`: resolve the patient
(first name reduced to its first whitespace token), keep their `R`/`S`
claims whose service date equals the criteria date, and emit an unscored
supplemental `ClaimMatch` for every such claim with at least one procedure
line whose normalized code lies in the criteria's normalized code set.  The
`except` wrapper returning `[]` on collaborator errors is subsumed by the
total `ApiEnv` model. -/
def find_matching_claims_api_fallback (env : ApiEnv) (criteria : SearchCriteria)
    (skipApiFallback : Bool) : List ClaimMatch :=
  if skipApiFallback then []
  else
    let fallbackFn := (splitWs criteria.patient_first_name).headD ""
    let fallbackLn := criteria.patient_last_name
    if fallbackFn = "" ∨ fallbackLn = "" then []
    else match env.patientEntity fallbackLn fallbackFn with
    | none => []
    | some (pat, claims) =>
      if claims = [] then []
      else
        let receivedOrSent := claims.filter
          (fun c => c.claimStatus = "R" || c.claimStatus = "S")
        if receivedOrSent = [] then []
        else match parseDate criteria.date_of_service with
        | none => []
        | some targetDate =>
          let eobCodes := criteria.payment_info.procedures.filterMap
            (fun p => if p.proc_code ≠ "" then some (normalize_procedure_code p.proc_code) else none)
          receivedOrSent.filterMap (fun c =>
            match parseDate c.dateService with
            | none => none
            | some d =>
              if d ≠ targetDate then none
              else
                let procs := env.claimProcs c.claimNum
                if procs = [] then none
                else
                  let matched := procs.filter (fun p =>
                    normalize_procedure_code p.codeSent ≠ "" ∧
                    normalize_procedure_code p.codeSent ∈ eobCodes)
                  if matched = [] then none
                  else some
                    { claim_num := c.claimNum
                      pat_num := pat.patNum
                      claim_fee := c.claimFee
                      date_of_service := c.dateService
                      is_secondary := c.claimType = "S"
                      has_secondary_plan := 0 < c.insSubNum2 ∨ 0 < c.planNum2
                      has_pending_secondary := false
                      match_score := none
                      match_source := "api_supplemental"
                      claim_procs := matched
                      is_supplemental := true
                      claim_status := c.claimStatus })

/-! ## Helper lemmas: zero stripping and code normalization -/

theorem stripZeros4_idem (l : List Char) : stripZeros4 (stripZeros4 l) = stripZeros4 l := by
  induction l with
  | nil => rfl
  | cons c rest ih =>
    by_cases h : c = '0' ∧ 4 ≤ rest.length
    · rw [stripZeros4, if_pos h, ih]
    · rw [stripZeros4, if_neg h, stripZeros4, if_neg h]

theorem stripZeros4_all_digits {l : List Char} (h : l.all isDigitCh) :
    (stripZeros4 l).all isDigitCh := by
  induction l with
  | nil => exact h
  | cons c rest ih =>
    by_cases hc : c = '0' ∧ 4 ≤ rest.length
    · rw [stripZeros4, if_pos hc]
      exact ih (by rw [List.all_cons] at h; exact (Bool.and_eq_true_iff.mp h).2)
    · rwa [stripZeros4, if_neg hc]

theorem stripZeros4_length {l : List Char} (h : 4 ≤ l.length) :
    4 ≤ (stripZeros4 l).length := by
  induction l with
  | nil => exact h
  | cons c rest ih =>
    by_cases hc : c = '0' ∧ 4 ≤ rest.length
    · rw [stripZeros4, if_pos hc]; exact ih hc.2
    · rwa [stripZeros4, if_neg hc]

theorem stripZeros4_ne_nil {l : List Char} (h : l ≠ []) : stripZeros4 l ≠ [] := by
  induction l with
  | nil => exact absurd rfl h
  | cons c rest ih =>
    by_cases hc : c = '0' ∧ 4 ≤ rest.length
    · rw [stripZeros4, if_pos hc]
      exact ih (by intro hn; rw [hn] at hc; simp at hc)
    · rw [stripZeros4, if_neg hc]; simp

theorem stripZeros4_noop_of_head {c : Char} {rest : List Char} (h : c ≠ '0') :
    stripZeros4 (c :: rest) = c :: rest := by
  rw [stripZeros4, if_neg (by intro hc; exact h hc.1)]

theorem normCodeL_cons (c : Char) (rest : List Char) :
    normCodeL (c :: rest) =
      if c = 'D' ∧ 5 < (c :: rest).length ∧ isDigitsL rest then
        'D' :: (if 4 < rest.length then stripZeros4 rest else rest)
      else if c ≠ 'D' ∧ isDigitsL (c :: rest) then 'D' :: c :: rest
      else c :: rest := rfl

theorem isDigitsL_all {l : List Char} (h : isDigitsL l = true) : l.all isDigitCh := by
  unfold isDigitsL at h
  exact (Bool.and_eq_true_iff.mp h).2

/-- Idempotence of the core normalizer on every input that is not a bare
digit string of length at least 5 with a leading zero. -/
theorem normCodeL_idem (l : List Char)
    (h : ¬ (isDigitsL l = true ∧ 5 ≤ l.length ∧ l.headD ' ' = '0')) :
    normCodeL (normCodeL l) = normCodeL l := by
  match l with
  | [] => rfl
  | c :: rest =>
    by_cases hA : c = 'D' ∧ 5 < (c :: rest).length ∧ isDigitsL rest
    · have h4 : 4 < rest.length := by
        have := hA.2.1; simp only [List.length_cons] at this; omega
      have e1 : normCodeL (c :: rest) = 'D' :: stripZeros4 rest := by
        rw [normCodeL_cons, if_pos hA, if_pos h4]
      have hrnn : rest ≠ [] := by intro hn; rw [hn] at h4; simp at h4
      have hdnn : stripZeros4 rest ≠ [] := stripZeros4_ne_nil hrnn
      have hdall : (stripZeros4 rest).all isDigitCh :=
        stripZeros4_all_digits (isDigitsL_all hA.2.2)
      have hdd : isDigitsL (stripZeros4 rest) = true := by
        unfold isDigitsL
        rw [Bool.and_eq_true_iff]
        exact ⟨decide_eq_true hdnn, hdall⟩
      have hdl : 4 ≤ (stripZeros4 rest).length := stripZeros4_length (le_of_lt h4)
      rw [e1]
      by_cases h5 : 4 < (stripZeros4 rest).length
      · have e2 : normCodeL ('D' :: stripZeros4 rest) = 'D' :: stripZeros4 (stripZeros4 rest) := by
          rw [normCodeL_cons,
            if_pos ⟨rfl, by simp only [List.length_cons]; omega, hdd⟩, if_pos h5]
        rw [e2, stripZeros4_idem]
      · have e2 : normCodeL ('D' :: stripZeros4 rest) = 'D' :: stripZeros4 rest := by
          rw [normCodeL_cons,
            if_neg (by
              intro hc
              have := hc.2.1
              simp only [List.length_cons] at this
              omega),
            if_neg (by intro hc; exact hc.1 rfl)]
        rw [e2]
    · by_cases hB : c ≠ 'D' ∧ isDigitsL (c :: rest) = true
      · have e1 : normCodeL (c :: rest) = 'D' :: c :: rest := by
          rw [normCodeL_cons, if_neg hA, if_pos hB]
        rw [e1]
        by_cases hlen : 5 ≤ (c :: rest).length
        · have hc0 : c ≠ '0' := by
            intro hc
            exact h ⟨hB.2, hlen, by rw [hc]; rfl⟩
          have e2 : normCodeL ('D' :: c :: rest) = 'D' :: stripZeros4 (c :: rest) := by
            rw [normCodeL_cons,
              if_pos ⟨rfl, by simp only [List.length_cons] at hlen ⊢; omega, hB.2⟩,
              if_pos (by simp only [List.length_cons] at hlen ⊢; omega)]
          rw [e2, stripZeros4_noop_of_head hc0]
        · have e2 : normCodeL ('D' :: c :: rest) = 'D' :: c :: rest := by
            rw [normCodeL_cons,
              if_neg (by
                intro hc
                have := hc.2.1
                simp only [List.length_cons] at this hlen
                omega),
              if_neg (by intro hc; exact hc.1 rfl)]
          rw [e2]
      · have e1 : normCodeL (c :: rest) = c :: rest := by
          rw [normCodeL_cons, if_neg hA, if_neg hB]
        rw [e1, e1]

/-! ## Helper lemmas: score ranges -/

theorem simTier_score_le_15 (l o : ℚ) (p : Bool) : (simTier l o p).score ≤ 15 := by
  unfold simTier
  split_ifs <;> simp

theorem simTruncTier_score_le_15 (s l : List Char) : (simTruncTier s l).score ≤ 15 := by
  unfold simTruncTier
  split_ifs <;> simp

theorem ite_score_le (c : Prop) [Decidable c] (t e : SimResult)
    (ht : t.score ≤ 15) (he : e.score ≤ 15) : (ite c t e).score ≤ 15 := by
  split_ifs <;> assumption

theorem sim_score_le_15 (a b : String) : (calculate_enhanced_similarity a b).score ≤ 15 := by
  unfold calculate_enhanced_similarity
  repeat'
    first
    | apply simTruncTier_score_le_15
    | apply simTier_score_le_15
    | apply ite_score_le
    | simp

theorem calcLnScore_le_15 (O : RegexOracle) (a b : String) : calcLnScore O a b ≤ 15 := by
  unfold calcLnScore
  dsimp only
  split_ifs <;> first
    | simp
    | exact sim_score_le_15 a b

theorem name_score_le_30 (O : RegexOracle) (a b c d : String) :
    calculate_name_match_score_with_nicknames O a b c d ≤ 30 := by
  unfold calculate_name_match_score_with_nicknames
  dsimp only
  split_ifs <;> first
    | simp
    | (have hln := calcLnScore_le_15 O (pyStripLower d) (pyStripLower b); omega)

theorem nameGate_some_bounds {O : RegexOracle} {a b c d : String} {ns : ℕ}
    (h : nameGate O a b c d = some ns) : 20 ≤ ns ∧ ns ≤ 30 := by
  unfold nameGate at h
  dsimp only at h
  split_ifs at h with h1 h2
  · cases h
    exact ⟨h1, name_score_le_30 O a b c d⟩
  · cases h
    exact ⟨h2, name_score_le_30 O a b d c⟩

/-! ## Helper lemmas: sorting and prioritization preserve membership -/

theorem mem_insertDescBy {α : Type} (key : α → ℕ) (a x : α) (l : List α) :
    x ∈ insertDescBy key a l ↔ x = a ∨ x ∈ l := by
  induction l with
  | nil => simp [insertDescBy]
  | cons b bs ih =>
    unfold insertDescBy
    split_ifs <;> (simp [ih]; try tauto)

theorem mem_sortDescBy {α : Type} (key : α → ℕ) (x : α) (l : List α) :
    x ∈ sortDescBy key l ↔ x ∈ l := by
  induction l with
  | nil => simp [sortDescBy]
  | cons b bs ih =>
    unfold sortDescBy
    rw [mem_insertDescBy, ih]
    simp

theorem setPendingTrue_match_score (m : ClaimMatch) :
    (setPendingTrue m).match_score = m.match_score := rfl

theorem setPendingTrue_is_secondary (m : ClaimMatch) :
    (setPendingTrue m).is_secondary = m.is_secondary := rfl

/-- Every element of a prioritized list is either an original element or an
original primary with `has_pending_secondary` set. -/
theorem mem_prioritizeMatches {m : ClaimMatch} {ms : List ClaimMatch}
    (h : m ∈ prioritizeMatches ms) :
    m ∈ ms ∨ ∃ m₀, m₀ ∈ ms ∧ m₀.is_secondary = false ∧ m = setPendingTrue m₀ := by
  unfold prioritizeMatches at h
  dsimp only at h
  split_ifs at h
  · exact Or.inl (List.mem_of_mem_filter h)
  · exact Or.inl (List.mem_of_mem_filter h)
  · rcases List.mem_append.mp h with h1 | h2
    · rcases List.mem_map.mp h1 with ⟨m₀, hm₀, rfl⟩
      have hf := List.mem_filter.mp hm₀
      refine Or.inr ⟨m₀, hf.1, ?_, rfl⟩
      simpa using hf.2
    · exact Or.inl (List.mem_of_mem_filter h2)

theorem buildApiMatch_match_score (env : ApiEnv) (cand : ScoredCandidate) :
    (buildApiMatch env cand).match_score = some cand.score := rfl

theorem buildApiMatch_pending (env : ApiEnv) (cand : ScoredCandidate) :
    (buildApiMatch env cand).has_pending_secondary = false := rfl

/-- Shape of every match produced by the cache-path claim evaluation: the
pending flag starts false and the score is the gate sum `30+10+ns+30` plus
the subscriber bonus, with the name score in the gate's range. -/
theorem evalCachedClaim_some {O : RegexOracle} {critFn critLn : String}
    {targetDate : PDate} {paymentCodes : List String} {criteria : SearchCriteria}
    {c : CachedClaim} {m : ClaimMatch}
    (h : evalCachedClaim O critFn critLn targetDate paymentCodes criteria c = some m) :
    m.has_pending_secondary = false ∧
    ∃ ns ss, 20 ≤ ns ∧ ns ≤ 30 ∧
      m.match_score = some (30 + 10 + ns + 30 + subscriberBonus ss) := by
  unfold evalCachedClaim at h
  by_cases h1 : c.date_of_service = ""
  · rw [if_pos h1] at h; exact Option.noConfusion h
  rw [if_neg h1] at h
  cases hp : parseDate c.date_of_service with
  | none => rw [hp] at h; exact Option.noConfusion h
  | some claimDate =>
    rw [hp] at h
    dsimp only at h
    by_cases h2 : claimDate ≠ targetDate
    · rw [if_pos h2] at h; exact Option.noConfusion h
    rw [if_neg h2] at h
    by_cases h3 : ¬ (c.claim_status = "S" ∨ c.claim_status = "H" ∨
        (c.claim_status = "R" ∧ c.is_secondary = false))
    · rw [if_pos h3] at h; exact Option.noConfusion h
    rw [if_neg h3] at h
    by_cases h4 : c.patient_first_name = "" ∨ c.patient_last_name = ""
    · rw [if_pos h4] at h; exact Option.noConfusion h
    rw [if_neg h4] at h
    cases hg : nameGate O c.patient_first_name c.patient_last_name critFn critLn with
    | none => rw [hg] at h; exact Option.noConfusion h
    | some ns =>
      rw [hg] at h
      dsimp only at h
      by_cases h5 : procMatchPct paymentCodes (normalizedCodes c.procedures) ≤ 49/100 ∧
          ¬ has_strong_non_procedure_match_with_fees claimDate targetDate ns
              c.procedures criteria.payment_info.procedures = true ∧
          ¬ has_procedure_count_match claimDate targetDate ns
              c.procedures criteria.payment_info.procedures = true
      · rw [if_pos h5] at h; exact Option.noConfusion h
      rw [if_neg h5] at h
      obtain rfl := (Option.some.inj h).symm
      obtain ⟨hlo, hhi⟩ := nameGate_some_bounds hg
      obtain ⟨ss, hss⟩ : ∃ ss, cacheSubBonus O criteria c = subscriberBonus ss := by
        unfold cacheSubBonus
        split_ifs
        · exact ⟨_, rfl⟩
        · exact ⟨0, rfl⟩
      exact ⟨rfl, ns, ss, hlo, hhi, by rw [← hss]⟩

/-! ## Helper lemmas: ascending fee sort -/

theorem insertAsc_length (a : ℚ) (l : List ℚ) : (insertAsc a l).length = l.length + 1 := by
  induction l with
  | nil => rfl
  | cons b bs ih =>
    unfold insertAsc
    split_ifs <;> simp [ih]

theorem sortAsc_length (l : List ℚ) : (sortAsc l).length = l.length := by
  induction l with
  | nil => rfl
  | cons b bs ih =>
    unfold sortAsc
    rw [insertAsc_length, ih, List.length_cons]

theorem mem_insertAsc (a x : ℚ) (l : List ℚ) : x ∈ insertAsc a l ↔ x = a ∨ x ∈ l := by
  induction l with
  | nil => simp [insertAsc]
  | cons b bs ih =>
    unfold insertAsc
    split_ifs <;> (simp [ih]; try tauto)

theorem mem_sortAsc (x : ℚ) (l : List ℚ) : x ∈ sortAsc l ↔ x ∈ l := by
  induction l with
  | nil => simp [sortAsc]
  | cons b bs ih =>
    unfold sortAsc
    rw [mem_insertAsc, ih]
    simp

theorem pos_of_mem_posFilterMap {α : Type} (g : α → ℚ) (l : List α) {x : ℚ}
    (h : x ∈ l.filterMap (fun p => if 0 < g p then some (g p) else none)) : 0 < x := by
  rcases List.mem_filterMap.mp h with ⟨p, -, hp⟩
  split_ifs at hp with h0
  cases hp
  exact h0

/-! ## Concrete data used by the witnesses -/

/-- Concrete regex-oracle instantiation for witnesses: a search succeeds
exactly when the query equals the candidate (true of the real engine on
identical lowercased names, whose patterns always match the name itself). -/
def eqRegexOracle : RegexOracle :=
  ⟨fun q cand => q == cand, fun q cand => q == cand⟩

/-! ## Claim theorems -/

/-- C4, counterexample: procedure-code normalization is not idempotent.
The bare digit code `"00123"` normalizes to `"D00123"` (length 6 > 5), and a
second pass strips the leading zeros down to `"D0123"`. -/
theorem c4_normalize_idem_counterexample :
    normalize_procedure_code (normalize_procedure_code "00123") ≠
      normalize_procedure_code "00123" := by decide

/-- C4, amended: procedure-code normalization is idempotent for every code
except a bare all-digit code of length at least 5 that starts with a zero
(for those, prepending the prefix makes the second pass strip zeros). -/
theorem c4_normalize_idem_amended (code : String)
    (h : ¬ (isDigitsL code.data = true ∧ 5 ≤ code.data.length ∧
            code.data.headD ' ' = '0')) :
    normalize_procedure_code (normalize_procedure_code code) =
      normalize_procedure_code code :=
  congrArg String.mk (normCodeL_idem code.data h)

/-- C4, witness: the amended idempotence evaluated at the already-canonical
code `"D0120"`. -/
theorem c4_normalize_idem_amended_witness :
    ¬ (isDigitsL "D0120".data = true ∧ 5 ≤ "D0120".data.length ∧
       "D0120".data.headD ' ' = '0') ∧
    normalize_procedure_code (normalize_procedure_code "D0120") =
      normalize_procedure_code "D0120" :=
  ⟨by decide, c4_normalize_idem_amended "D0120" (by decide)⟩

/-- C7: in the name gate (shared by the API scorer and the cache path via
`nameGate`), when the criteria-order name score is below 20 the gate is
re-run once with the criteria first/last names swapped; the candidate is
rejected iff both attempts score below 20, and a swapped attempt scoring at
least 20 supplies the name score. -/
theorem c7_name_gate_swap_retry (O : RegexOracle) (claimFn claimLn critFn critLn : String) :
    (nameGate O claimFn claimLn critFn critLn = none ↔
      calculate_name_match_score_with_nicknames O claimFn claimLn critFn critLn < 20 ∧
      calculate_name_match_score_with_nicknames O claimFn claimLn critLn critFn < 20) ∧
    (calculate_name_match_score_with_nicknames O claimFn claimLn critFn critLn < 20 →
      20 ≤ calculate_name_match_score_with_nicknames O claimFn claimLn critLn critFn →
      nameGate O claimFn claimLn critFn critLn =
        some (calculate_name_match_score_with_nicknames O claimFn claimLn critLn critFn)) ∧
    (20 ≤ calculate_name_match_score_with_nicknames O claimFn claimLn critFn critLn →
      nameGate O claimFn claimLn critFn critLn =
        some (calculate_name_match_score_with_nicknames O claimFn claimLn critFn critLn)) := by
  unfold nameGate
  dsimp only
  split_ifs with hA hB <;> refine ⟨?_, ?_, ?_⟩ <;> simp_all

/-- C7, witness: transposed criteria names ("smith william" against claim
owner "william smith") fail the direct attempt and pass via the swap. -/
theorem c7_name_gate_swap_retry_witness :
    calculate_name_match_score_with_nicknames eqRegexOracle "william" "smith" "smith" "william" < 20 ∧
    20 ≤ calculate_name_match_score_with_nicknames eqRegexOracle "william" "smith" "william" "smith" ∧
    nameGate eqRegexOracle "william" "smith" "smith" "william" =
      some (calculate_name_match_score_with_nicknames eqRegexOracle "william" "smith" "william" "smith") :=
  ⟨by decide, by decide,
    (c7_name_gate_swap_retry eqRegexOracle "william" "smith" "smith" "william").2.1
      (by decide) (by decide)⟩

/-- C10: in the cache path's source determination, for an accepted override
(procedure match at most 49%) the count-match condition is re-tested first:
the source is `database_count_match` exactly when the count condition holds
— even when the fee-array override is what fired — and
`database_alternate_benefit` exactly when it does not. -/
theorem c10_count_source_precedence (pct : ℚ) (cd td : PDate) (ns : ℕ)
    (cps : List ClaimProcRec) (eps : List ProcedurePayment)
    (hpct : pct ≤ 49/100) :
    (determineCacheMatchSource true pct (has_procedure_count_match cd td ns cps eps) =
        "database_count_match" ↔
      has_procedure_count_match cd td ns cps eps = true) ∧
    (determineCacheMatchSource true pct (has_procedure_count_match cd td ns cps eps) =
        "database_alternate_benefit" ↔
      has_procedure_count_match cd td ns cps eps = false) := by
  constructor <;>
    (unfold determineCacheMatchSource
     cases hc : has_procedure_count_match cd td ns cps eps <;> simp [hpct, hc])

/-- C10, witness: with an equal non-zero line count the re-test tags the
match `database_count_match` under a 0% procedure overlap. -/
theorem c10_count_source_precedence_witness :
    (0 : ℚ) ≤ 49/100 ∧
    determineCacheMatchSource true 0
      (has_procedure_count_match ⟨2024, 1, 1⟩ ⟨2024, 1, 1⟩ 20
        [⟨"D0140", 50, 1⟩] [⟨"D0120", 50, 40, "", 0, 0, false⟩]) =
      "database_count_match" :=
  ⟨by decide,
    ((c10_count_source_precedence 0 ⟨2024, 1, 1⟩ ⟨2024, 1, 1⟩ 20
        [⟨"D0140", 50, 1⟩] [⟨"D0120", 50, 40, "", 0, 0, false⟩]
        (by decide)).1).mpr (by decide)⟩

/-- C3: the procedure match percentage is 0 when either code list is empty;
it is 100% when both lists de-duplicate to a single code each and those two
codes normalize equal (regardless of repeat counts); otherwise it is the
size of the intersection of the normalized code sets divided by the size of
the normalized payment-code set. -/
theorem c3_match_procedure_codes_spec (paymentCodes dbCodes : List String) :
    ((paymentCodes = [] ∨ dbCodes = []) → match_procedure_codes paymentCodes dbCodes = 0) ∧
    (∀ a b, paymentCodes.toFinset = {a} → dbCodes.toFinset = {b} →
      normalize_procedure_code a = normalize_procedure_code b →
      match_procedure_codes paymentCodes dbCodes = 1) ∧
    (paymentCodes ≠ [] → dbCodes ≠ [] →
      ¬ (paymentCodes.toFinset.card = 1 ∧ dbCodes.toFinset.card = 1 ∧
         normalize_procedure_code (paymentCodes.headD "") =
           normalize_procedure_code (dbCodes.headD "")) →
      match_procedure_codes paymentCodes dbCodes =
        ((paymentCodes.toFinset.image normalize_procedure_code ∩
            dbCodes.toFinset.image normalize_procedure_code).card : ℚ) /
          ((paymentCodes.toFinset.image normalize_procedure_code).card : ℚ)) := by
  refine ⟨?_, ?_, ?_⟩
  · intro h
    unfold match_procedure_codes
    rw [if_pos h]
  · intro a b hpa hdb hnorm
    have hpne : paymentCodes ≠ [] := by
      intro hn
      rw [hn] at hpa
      simp at hpa
      exact (Finset.singleton_ne_empty a) hpa.symm
    have hdne : dbCodes ≠ [] := by
      intro hn
      rw [hn] at hdb
      simp at hdb
      exact (Finset.singleton_ne_empty b) hdb.symm
    have hpHead : paymentCodes.headD "" = a := by
      have hmem : paymentCodes.headD "" ∈ paymentCodes := by
        cases paymentCodes with
        | nil => exact absurd rfl hpne
        | cons x xs => exact List.mem_cons_self x xs
      have : paymentCodes.headD "" ∈ paymentCodes.toFinset := List.mem_toFinset.mpr hmem
      rw [hpa] at this
      exact Finset.mem_singleton.mp this
    have hdHead : dbCodes.headD "" = b := by
      have hmem : dbCodes.headD "" ∈ dbCodes := by
        cases dbCodes with
        | nil => exact absurd rfl hdne
        | cons x xs => exact List.mem_cons_self x xs
      have : dbCodes.headD "" ∈ dbCodes.toFinset := List.mem_toFinset.mpr hmem
      rw [hdb] at this
      exact Finset.mem_singleton.mp this
    unfold match_procedure_codes
    rw [if_neg (by
      rintro (h | h)
      · exact hpne h
      · exact hdne h)]
    rw [if_pos ⟨by rw [hpa]; simp, by rw [hdb]; simp, by rw [hpHead, hdHead, hnorm]⟩]
  · intro hpne hdne hnot
    unfold match_procedure_codes
    rw [if_neg (by
      rintro (h | h)
      · exact hpne h
      · exact hdne h)]
    rw [if_neg hnot]
    dsimp only
    rw [if_pos (by
      have : paymentCodes.headD "" ∈ paymentCodes := by
        cases paymentCodes with
        | nil => exact absurd rfl hpne
        | cons x xs => exact List.mem_cons_self x xs
      have hmem : normalize_procedure_code (paymentCodes.headD "") ∈
          paymentCodes.toFinset.image normalize_procedure_code :=
        Finset.mem_image_of_mem _ (List.mem_toFinset.mpr this)
      intro hc
      rw [Finset.card_eq_zero] at hc
      rw [hc] at hmem
      exact Finset.not_mem_empty _ hmem)]

/-- C3, witness: empty side gives 0; the repeated orthodontic code gives
100%; a half-overlap gives the asymmetric ratio 1/2. -/
theorem c3_match_procedure_codes_spec_witness :
    match_procedure_codes [] ["D0120"] = 0 ∧
    match_procedure_codes ["D8090", "D8090"] ["8090"] = 1 ∧
    match_procedure_codes ["D0120", "D0140"] ["D0120"] = 1/2 := by
  refine ⟨(c3_match_procedure_codes_spec [] ["D0120"]).1 (Or.inl rfl),
    (c3_match_procedure_codes_spec ["D8090", "D8090"] ["8090"]).2.1 "D8090" "8090"
      (by decide) (by decide) (by decide), ?_⟩
  have h := (c3_match_procedure_codes_spec ["D0120", "D0140"] ["D0120"]).2.2
    (by decide) (by decide) (by decide)
  rw [h]
  decide

/-- C2: given the exact date match guaranteed at the call site, the
fee-array override fires iff the name score is at least 25, the positive
billed-fee list of the claim and the positive submitted-amount list of the
criteria are non-empty and of equal length, and at least 80% of the
ascending-sorted pairs differ by at most one dollar or at most 2% of the
larger fee of the pair. -/
theorem c2_fee_override_iff (cd td : PDate) (ns : ℕ)
    (cps : List ClaimProcRec) (eps : List ProcedurePayment) (hdate : cd = td) :
    has_strong_non_procedure_match_with_fees cd td ns cps eps = true ↔
      (25 ≤ ns ∧
       cps.filterMap (fun p => if 0 < p.feeBilled then some p.feeBilled else none) ≠ [] ∧
       eps.filterMap (fun p => if 0 < p.submitted_amt then some p.submitted_amt else none) ≠ [] ∧
       (cps.filterMap (fun p => if 0 < p.feeBilled then some p.feeBilled else none)).length =
         (eps.filterMap (fun p => if 0 < p.submitted_amt then some p.submitted_amt else none)).length ∧
       4 * ((sortAsc (cps.filterMap (fun p => if 0 < p.feeBilled then some p.feeBilled else none))).zip
              (sortAsc (eps.filterMap (fun p => if 0 < p.submitted_amt then some p.submitted_amt else none)))).length ≤
         5 * (((sortAsc (cps.filterMap (fun p => if 0 < p.feeBilled then some p.feeBilled else none))).zip
                (sortAsc (eps.filterMap (fun p => if 0 < p.submitted_amt then some p.submitted_amt else none)))).filter
              (fun ab => |ab.1 - ab.2| ≤ 1 ∨ |ab.1 - ab.2| ≤ 2/100 * max ab.1 ab.2)).length) := by
  subst hdate
  unfold has_strong_non_procedure_match_with_fees
  rw [if_neg (fun hc => hc rfl)]
  dsimp only
  split_ifs with h1 h2 h3 h4
  · simp only [Bool.false_eq_true, false_iff]
    rintro ⟨h25, -⟩
    omega
  · simp only [Bool.false_eq_true, false_iff]
    rintro ⟨-, hpms, heob, -⟩
    rcases h2 with h | h
    · rw [h] at hpms; simp at hpms
    · rw [h] at heob; simp at heob
  · simp only [Bool.false_eq_true, false_iff]
    rintro ⟨-, hpms, heob, -⟩
    rcases h3 with h | h
    · exact hpms h
    · exact heob h
  · simp only [Bool.false_eq_true, false_iff]
    rintro ⟨-, -, -, hlen, -⟩
    exact h4 (by rw [sortAsc_length, sortAsc_length, hlen])
  · rw [decide_eq_true_iff]
    push_neg at h3
    have hlenS : (sortAsc (cps.filterMap
        (fun p => if 0 < p.feeBilled then some p.feeBilled else none))).length =
        (sortAsc (eps.filterMap
          (fun p => if 0 < p.submitted_amt then some p.submitted_amt else none))).length :=
      not_ne_iff.mp h4
    have hlen : (cps.filterMap (fun p => if 0 < p.feeBilled then some p.feeBilled else none)).length =
        (eps.filterMap (fun p => if 0 < p.submitted_amt then some p.submitted_amt else none)).length := by
      rw [sortAsc_length, sortAsc_length] at hlenS
      exact hlenS
    have hfc : (((sortAsc (cps.filterMap (fun p => if 0 < p.feeBilled then some p.feeBilled else none))).zip
          (sortAsc (eps.filterMap (fun p => if 0 < p.submitted_amt then some p.submitted_amt else none)))).filter
            (fun ab => feePairMatches ab.1 ab.2)) =
        (((sortAsc (cps.filterMap (fun p => if 0 < p.feeBilled then some p.feeBilled else none))).zip
          (sortAsc (eps.filterMap (fun p => if 0 < p.submitted_amt then some p.submitted_amt else none)))).filter
            (fun ab => |ab.1 - ab.2| ≤ 1 ∨ |ab.1 - ab.2| ≤ 2/100 * max ab.1 ab.2)) := by
      apply List.filter_congr
      rintro ⟨x, y⟩ hxy
      obtain ⟨hx, hy⟩ := List.of_mem_zip hxy
      have hxpos : 0 < x :=
        pos_of_mem_posFilterMap (fun p => p.feeBilled) cps ((mem_sortAsc _ _).mp hx)
      have hypos : 0 < y :=
        pos_of_mem_posFilterMap (fun p => p.submitted_amt) eps ((mem_sortAsc _ _).mp hy)
      have hmax : 0 < max x y := lt_max_of_lt_left hxpos
      unfold feePairMatches
      dsimp only
      rw [if_pos hmax]
      have : (|x - y| / max x y ≤ 2/100) ↔ |x - y| ≤ 2/100 * max x y := div_le_iff₀ hmax
      simp only [decide_eq_decide]
      rw [this]
    have hpos : 0 < ((sortAsc (cps.filterMap (fun p => if 0 < p.feeBilled then some p.feeBilled else none))).zip
        (sortAsc (eps.filterMap (fun p => if 0 < p.submitted_amt then some p.submitted_amt else none)))).length := by
      rw [List.length_zip, hlenS, min_self, sortAsc_length]
      cases hcase : eps.filterMap (fun p => if 0 < p.submitted_amt then some p.submitted_amt else none) with
      | nil => exact absurd hcase h3.2
      | cons z zs => simp
    rw [hfc, div_le_div_iff₀ (by norm_num) (by exact_mod_cast hpos)]
    set L := ((sortAsc (cps.filterMap (fun p => if 0 < p.feeBilled then some p.feeBilled else none))).zip
        (sortAsc (eps.filterMap (fun p => if 0 < p.submitted_amt then some p.submitted_amt else none)))).length with hLdef
    set C := (((sortAsc (cps.filterMap (fun p => if 0 < p.feeBilled then some p.feeBilled else none))).zip
        (sortAsc (eps.filterMap (fun p => if 0 < p.submitted_amt then some p.submitted_amt else none)))).filter
          (fun ab => |ab.1 - ab.2| ≤ 1 ∨ |ab.1 - ab.2| ≤ 2/100 * max ab.1 ab.2)).length with hCdef
    constructor
    · intro hge
      refine ⟨by omega, h3.1, h3.2, hlen, ?_⟩
      exact_mod_cast (by linarith : (4 * (L : ℚ)) ≤ 5 * (C : ℚ))
    · rintro ⟨-, -, -, -, h80⟩
      have hq : (4 * (L : ℚ)) ≤ 5 * (C : ℚ) := by exact_mod_cast h80
      linarith

/-- C2, witness: one claim line billed $50 against one EOB line submitted
$50 with name score 30 and matching dates fires the override. -/
theorem c2_fee_override_iff_witness :
    has_strong_non_procedure_match_with_fees ⟨2024, 3, 5⟩ ⟨2024, 3, 5⟩ 30
      [⟨"D0140", 50, 1⟩] [⟨"D0120", 50, 40, "", 0, 0, false⟩] = true :=
  (c2_fee_override_iff ⟨2024, 3, 5⟩ ⟨2024, 3, 5⟩ 30
    [⟨"D0140", 50, 1⟩] [⟨"D0120", 50, 40, "", 0, 0, false⟩] rfl).mpr (by decide)

/-! ## Helper lemmas for the remote path -/

/-- The API scorer either rejects (score 0) or awards `30+10+ns+30` for the
name score it gated. -/
theorem score_api_cases (O : RegexOracle) (apiClaim : ApiClaim)
    (procs : List ClaimProcRec) (criteria : SearchCriteria) (owner : PatientDetails) :
    (score_api_claim_candidate O apiClaim procs criteria owner).1 = 0 ∨
    ∃ ns, nameGate O owner.fName owner.lName
        criteria.patient_first_name criteria.patient_last_name = some ns ∧
      (score_api_claim_candidate O apiClaim procs criteria owner).1 = 30 + 10 + ns + 30 := by
  unfold score_api_claim_candidate
  cases hp1 : parseDate apiClaim.dateService with
  | none => exact Or.inl rfl
  | some cd =>
    cases hp2 : parseDate criteria.date_of_service with
    | none => exact Or.inl rfl
    | some td =>
      dsimp only
      cases hg : nameGate O owner.fName owner.lName
          criteria.patient_first_name criteria.patient_last_name with
      | none =>
        dsimp only
        split_ifs <;> exact Or.inl rfl
      | some ns =>
        dsimp only
        split_ifs <;> first
          | exact Or.inl rfl
          | exact Or.inr ⟨ns, rfl, rfl⟩

/-- Every match returned by the remote path carries a score of at least the
89-point floor. -/
theorem find_matching_claims_score_floor {env : ApiEnv} {O : RegexOracle}
    {criteria : SearchCriteria} {m : ClaimMatch}
    (hm : m ∈ find_matching_claims env O criteria) :
    ∃ s, m.match_score = some s ∧ 89 ≤ s := by
  unfold find_matching_claims at hm
  cases hp : parseDate criteria.date_of_service with
  | none => rw [hp] at hm; exact absurd hm (List.not_mem_nil m)
  | some target =>
    rw [hp] at hm
    dsimp only at hm
    split_ifs at hm with hemp
    · exact absurd hm (List.not_mem_nil m)
    rcases mem_prioritizeMatches hm with h1 | ⟨m₀, hm₀, hsec, rfl⟩
    · rcases List.mem_map.mp h1 with ⟨cand, hcand, rfl⟩
      have hmemF := (mem_sortDescBy _ cand _).mp hcand
      have h89 := of_decide_eq_true (List.mem_filter.mp hmemF).2
      exact ⟨cand.score, rfl, h89⟩
    · rcases List.mem_map.mp hm₀ with ⟨cand, hcand, rfl⟩
      have hmemF := (mem_sortDescBy _ cand _).mp hcand
      have h89 := of_decide_eq_true (List.mem_filter.mp hmemF).2
      exact ⟨cand.score, rfl, h89⟩

/-- Members of a prioritized list of pending-free matches that are secondary
still carry a false pending flag. -/
theorem pending_false_of_mem_prioritize {m : ClaimMatch} {ms : List ClaimMatch}
    (hall : ∀ m' ∈ ms, m'.has_pending_secondary = false)
    (hm : m ∈ prioritizeMatches ms) (hsec : m.is_secondary = true) :
    m.has_pending_secondary = false := by
  rcases mem_prioritizeMatches hm with h1 | ⟨m₀, hm₀, hs₀, rfl⟩
  · exact hall m h1
  · rw [setPendingTrue_is_secondary] at hsec
    rw [hs₀] at hsec
    cases hsec

/-! ## Witness data for the orchestration claims -/

/-- Witness remittance payload: one EOB line, code `D0120`, $50. -/
def witnessPay : PaymentInfo := ⟨[⟨"D0120", 50, 40, "", 0, 0, false⟩]⟩

/-- Witness criteria: patient john smith, subscriber mary smith. -/
def witnessCriteria : SearchCriteria :=
  ⟨"2024-03-05", "john", "smith", "mary", "smith", witnessPay⟩

/-- Witness criteria with an unparseable date of service. -/
def bogusDateCriteria : SearchCriteria :=
  ⟨"not-a-date", "john", "smith", "mary", "smith", witnessPay⟩

/-- Witness API claim: sent, matching date, one `D0120` line. -/
def witnessApiClaim : ApiClaim := ⟨88, 5, "2024-03-05", "S", "P", 50, 0, 0⟩

/-- Witness claim owner. -/
def witnessOwner : PatientDetails := ⟨5, "john", "smith"⟩

/-- Witness collaborator environment for the remote path. -/
def witnessEnv : ApiEnv :=
  ⟨fun _ _ => some (witnessOwner, [witnessApiClaim]), fun _ _ => none, fun _ => [],
   fun _ => some witnessOwner, fun _ => [⟨"D0120", 50, 9⟩], fun _ => some 1⟩

/-- The match the remote path produces on the witness data. -/
def witnessApiMatch : ClaimMatch :=
  { claim_num := 88, pat_num := 5, claim_fee := 50, date_of_service := "2024-03-05"
    is_secondary := false, has_secondary_plan := false, has_pending_secondary := false
    match_score := some 100, match_source := "api_strict_scored"
    claim_procs := [⟨"D0120", 50, 9⟩], is_supplemental := false, claim_status := "S" }

/-- Witness cached claim: matching date/status/names, subscriber recorded,
one `D0120` line billed $50. -/
def witnessCachedClaim : CachedClaim :=
  ⟨77, 5, "2024-03-05", "S", "john", "smith", "mary", "smith",
   [⟨"D0120", 50, 9⟩], 50, false, "P", "P", false, false⟩

/-- The match the cache path produces on the witness data: full name score
30 plus the +15 subscriber bonus pushes the score to 115. -/
def witnessCacheMatch : ClaimMatch :=
  { claim_num := 77, pat_num := 5, claim_fee := 50, date_of_service := "2024-03-05"
    is_secondary := false, has_secondary_plan := false, has_pending_secondary := false
    match_score := some 115, match_source := "database_strict"
    claim_procs := [⟨"D0120", 50, 9⟩], is_supplemental := false, claim_status := "S" }

/-! ## Orchestration claim theorems -/

/-- C1: a candidate the API scorer accepts scores exactly
`30 + 10 + nameScore + 30` with the name score in `[20, 30]`, hence a total
in `[90, 100]`; and every match returned by `find_matching_claims` carries a
score of at least the 89-point floor. -/
theorem c1_scorer_range_and_floor :
    (∀ (O : RegexOracle) (apiClaim : ApiClaim) (procs : List ClaimProcRec)
        (criteria : SearchCriteria) (owner : PatientDetails),
      (score_api_claim_candidate O apiClaim procs criteria owner).1 ≠ 0 →
      ∃ ns, 20 ≤ ns ∧ ns ≤ 30 ∧
        (score_api_claim_candidate O apiClaim procs criteria owner).1 = 30 + 10 + ns + 30 ∧
        90 ≤ (score_api_claim_candidate O apiClaim procs criteria owner).1 ∧
        (score_api_claim_candidate O apiClaim procs criteria owner).1 ≤ 100) ∧
    (∀ (env : ApiEnv) (O : RegexOracle) (criteria : SearchCriteria),
      ∀ m ∈ find_matching_claims env O criteria,
        ∃ s, m.match_score = some s ∧ 89 ≤ s) := by
  constructor
  · intro O apiClaim procs criteria owner h
    rcases score_api_cases O apiClaim procs criteria owner with h0 | ⟨ns, hg, hs⟩
    · exact absurd h0 h
    · obtain ⟨hlo, hhi⟩ := nameGate_some_bounds hg
      exact ⟨ns, hlo, hhi, hs, by omega, by omega⟩
  · intro env O criteria m hm
    exact find_matching_claims_score_floor hm

/-- C1, witness: the witness remote search accepts one claim at score 100
and returns it above the floor. -/
theorem c1_scorer_range_and_floor_witness :
    ((score_api_claim_candidate eqRegexOracle witnessApiClaim [⟨"D0120", 50, 9⟩]
        witnessCriteria witnessOwner).1 ≠ 0 ∧
      ∃ ns, 20 ≤ ns ∧ ns ≤ 30 ∧
        (score_api_claim_candidate eqRegexOracle witnessApiClaim [⟨"D0120", 50, 9⟩]
          witnessCriteria witnessOwner).1 = 30 + 10 + ns + 30 ∧
        90 ≤ (score_api_claim_candidate eqRegexOracle witnessApiClaim [⟨"D0120", 50, 9⟩]
          witnessCriteria witnessOwner).1 ∧
        (score_api_claim_candidate eqRegexOracle witnessApiClaim [⟨"D0120", 50, 9⟩]
          witnessCriteria witnessOwner).1 ≤ 100) ∧
    (witnessApiMatch ∈ find_matching_claims witnessEnv eqRegexOracle witnessCriteria ∧
      ∃ s, witnessApiMatch.match_score = some s ∧ 89 ≤ s) :=
  ⟨⟨by decide,
    c1_scorer_range_and_floor.1 eqRegexOracle witnessApiClaim [⟨"D0120", 50, 9⟩]
      witnessCriteria witnessOwner (by decide)⟩,
   ⟨by decide,
    c1_scorer_range_and_floor.2 witnessEnv eqRegexOracle witnessCriteria
      witnessApiMatch (by decide)⟩⟩

/-- C5: on both the cache path and the remote path, when primary and
secondary matches both pass the gates every primary is flagged
`has_pending_secondary` and the union is returned; when only one group is
non-empty exactly that group is returned; and `has_pending_secondary` is
never true on a secondary match. -/
theorem c5_pending_secondary_partition :
    (∀ ms : List ClaimMatch, (∀ m ∈ ms, m.has_pending_secondary = false) →
      (ms.filter (fun m => !m.is_secondary) ≠ [] →
        ms.filter (fun m => m.is_secondary) ≠ [] →
        prioritizeMatches ms =
          (ms.filter (fun m => !m.is_secondary)).map setPendingTrue ++
            ms.filter (fun m => m.is_secondary) ∧
        ∀ m ∈ prioritizeMatches ms, m.is_secondary = false →
          m.has_pending_secondary = true) ∧
      (ms.filter (fun m => !m.is_secondary) ≠ [] →
        ms.filter (fun m => m.is_secondary) = [] →
        prioritizeMatches ms = ms.filter (fun m => !m.is_secondary)) ∧
      (ms.filter (fun m => !m.is_secondary) = [] →
        prioritizeMatches ms = ms.filter (fun m => m.is_secondary)) ∧
      (∀ m ∈ prioritizeMatches ms, m.is_secondary = true →
        m.has_pending_secondary = false)) ∧
    (∀ (O : RegexOracle) (criteria : SearchCriteria) (dbClaims : List CachedClaim),
      ∀ m ∈ filter_cached_claims O criteria dbClaims,
        m.is_secondary = true → m.has_pending_secondary = false) ∧
    (∀ (env : ApiEnv) (O : RegexOracle) (criteria : SearchCriteria),
      ∀ m ∈ find_matching_claims env O criteria,
        m.is_secondary = true → m.has_pending_secondary = false) := by
  refine ⟨?_, ?_, ?_⟩
  · intro ms hall
    refine ⟨?_, ?_, ?_, ?_⟩
    · intro hp hs
      unfold prioritizeMatches
      dsimp only
      rw [if_neg hp, if_neg hs]
      refine ⟨rfl, ?_⟩
      intro m hm hprim
      rcases List.mem_append.mp hm with h1 | h2
      · rcases List.mem_map.mp h1 with ⟨m₀, _, rfl⟩
        rfl
      · have := (List.mem_filter.mp h2).2
        rw [this] at hprim
        cases hprim
    · intro hp hs
      unfold prioritizeMatches
      dsimp only
      rw [if_neg hp, if_pos hs]
    · intro hp
      unfold prioritizeMatches
      dsimp only
      rw [if_pos hp]
    · intro m hm hsec
      exact pending_false_of_mem_prioritize hall hm hsec
  · intro O criteria dbClaims m hm hsec
    unfold filter_cached_claims at hm
    split_ifs at hm
    all_goals try exact absurd hm (List.not_mem_nil m)
    all_goals
      (cases hp : parseDate criteria.date_of_service with
       | none => rw [hp] at hm; exact absurd hm (List.not_mem_nil m)
       | some target =>
         rw [hp] at hm
         dsimp only at hm
         first
         | exact absurd hm (List.not_mem_nil m)
         | (refine pending_false_of_mem_prioritize ?_ hm hsec
            intro m' hm'
            have hmem := (mem_sortDescBy _ m' _).mp hm'
            rcases List.mem_filterMap.mp hmem with ⟨c, -, hc⟩
            exact (evalCachedClaim_some hc).1))
  · intro env O criteria m hm hsec
    unfold find_matching_claims at hm
    cases hp : parseDate criteria.date_of_service with
    | none => rw [hp] at hm; exact absurd hm (List.not_mem_nil m)
    | some target =>
      rw [hp] at hm
      dsimp only at hm
      split_ifs at hm with hemp
      · exact absurd hm (List.not_mem_nil m)
      refine pending_false_of_mem_prioritize ?_ hm hsec
      intro m' hm'
      rcases List.mem_map.mp hm' with ⟨cand, -, rfl⟩
      exact buildApiMatch_pending env cand

/-- C5, witness: a primary and a secondary pending-free match are both
returned with the primary flagged, and no secondary carries the flag. -/
theorem c5_pending_secondary_partition_witness :
    (witnessCacheMatch :: [{ witnessCacheMatch with is_secondary := true }]).filter
        (fun m => !m.is_secondary) ≠ [] ∧
    (witnessCacheMatch :: [{ witnessCacheMatch with is_secondary := true }]).filter
        (fun m => m.is_secondary) ≠ [] ∧
    prioritizeMatches (witnessCacheMatch :: [{ witnessCacheMatch with is_secondary := true }]) =
      ((witnessCacheMatch :: [{ witnessCacheMatch with is_secondary := true }]).filter
          (fun m => !m.is_secondary)).map setPendingTrue ++
        (witnessCacheMatch :: [{ witnessCacheMatch with is_secondary := true }]).filter
          (fun m => m.is_secondary) :=
  ⟨by decide, by decide,
    (((c5_pending_secondary_partition.1
        (witnessCacheMatch :: [{ witnessCacheMatch with is_secondary := true }])
        (by decide)).1 (by decide) (by decide)).1)⟩

/-- Witness claim for the supplemental fallback: received, matching date. -/
def witnessFallbackClaim : ApiClaim := ⟨89, 5, "2024-03-05", "R", "P", 50, 0, 0⟩

/-- Witness environment for the supplemental fallback. -/
def witnessFallbackEnv : ApiEnv :=
  ⟨fun _ _ => some (witnessOwner, [witnessFallbackClaim]), fun _ _ => none, fun _ => [],
   fun _ => some witnessOwner, fun _ => [⟨"D0120", 50, 9⟩], fun _ => some 1⟩

/-- The supplemental match the fallback produces on the witness data. -/
def witnessSuppMatch : ClaimMatch :=
  { claim_num := 89, pat_num := 5, claim_fee := 50, date_of_service := "2024-03-05"
    is_secondary := false, has_secondary_plan := false, has_pending_secondary := false
    match_score := none, match_source := "api_supplemental"
    claim_procs := [⟨"D0120", 50, 9⟩], is_supplemental := true, claim_status := "R" }

/-- C6: every match emitted by the supplemental fallback is flagged
supplemental with source `api_supplemental` and no numeric score, and comes
from a claim with status `R` or `S` whose service date parses equal to the
criteria date and which has at least one procedure line whose normalized
code lies in the criteria's normalized code set. -/
theorem c6_supplemental_invariants (env : ApiEnv) (criteria : SearchCriteria) (skip : Bool) :
    ∀ m ∈ find_matching_claims_api_fallback env criteria skip,
      m.is_supplemental = true ∧
      m.match_source = "api_supplemental" ∧
      m.match_score = none ∧
      (m.claim_status = "R" ∨ m.claim_status = "S") ∧
      (∃ d, parseDate m.date_of_service = some d ∧
        parseDate criteria.date_of_service = some d) ∧
      m.claim_procs ≠ [] ∧
      (∀ p ∈ m.claim_procs,
        normalize_procedure_code p.codeSent ≠ "" ∧
        normalize_procedure_code p.codeSent ∈ criteria.payment_info.procedures.filterMap
          (fun q => if q.proc_code ≠ "" then some (normalize_procedure_code q.proc_code) else none)) := by
  intro m hm
  unfold find_matching_claims_api_fallback at hm
  dsimp only at hm
  split_ifs at hm with h1 h2
  · exact absurd hm (List.not_mem_nil m)
  · exact absurd hm (List.not_mem_nil m)
  cases hpe : env.patientEntity criteria.patient_last_name
      ((splitWs criteria.patient_first_name).headD "") with
  | none => rw [hpe] at hm; exact absurd hm (List.not_mem_nil m)
  | some pc =>
    obtain ⟨pat, claims⟩ := pc
    rw [hpe] at hm
    dsimp only at hm
    split_ifs at hm with h3 h4
    · exact absurd hm (List.not_mem_nil m)
    · exact absurd hm (List.not_mem_nil m)
    cases hpd : parseDate criteria.date_of_service with
    | none => rw [hpd] at hm; exact absurd hm (List.not_mem_nil m)
    | some target =>
      rw [hpd] at hm
      dsimp only at hm
      rcases List.mem_filterMap.mp hm with ⟨c, hc, heval⟩
      cases hcd : parseDate c.dateService with
      | none => rw [hcd] at heval; exact Option.noConfusion heval
      | some d =>
        rw [hcd] at heval
        dsimp only at heval
        split_ifs at heval with h5 h6 h7
        obtain rfl := (Option.some.inj heval).symm
        have hstatus := (List.mem_filter.mp hc).2
        refine ⟨rfl, rfl, rfl, ?_, ⟨d, hcd, ?_⟩, h7, ?_⟩
        · simpa using hstatus
        · rw [not_ne_iff.mp h5]
        · intro p hp
          exact of_decide_eq_true (List.mem_filter.mp hp).2

/-- C6, witness: the witness fallback search returns one supplemental match
with all the invariants. -/
theorem c6_supplemental_invariants_witness :
    witnessSuppMatch ∈ find_matching_claims_api_fallback witnessFallbackEnv witnessCriteria false ∧
    (witnessSuppMatch.is_supplemental = true ∧
      witnessSuppMatch.match_source = "api_supplemental" ∧
      witnessSuppMatch.match_score = none ∧
      (witnessSuppMatch.claim_status = "R" ∨ witnessSuppMatch.claim_status = "S") ∧
      (∃ d, parseDate witnessSuppMatch.date_of_service = some d ∧
        parseDate witnessCriteria.date_of_service = some d) ∧
      witnessSuppMatch.claim_procs ≠ [] ∧
      (∀ p ∈ witnessSuppMatch.claim_procs,
        normalize_procedure_code p.codeSent ≠ "" ∧
        normalize_procedure_code p.codeSent ∈ witnessCriteria.payment_info.procedures.filterMap
          (fun q => if q.proc_code ≠ "" then some (normalize_procedure_code q.proc_code) else none))) :=
  ⟨by decide,
    c6_supplemental_invariants witnessFallbackEnv witnessCriteria false
      witnessSuppMatch (by decide)⟩

/-- C8: the cache-path score is `30 + 10 + nameScore + 30` plus the
subscriber bonus, and a concrete cached claim with a perfect name and
subscriber match scores 115, exceeding 100. -/
theorem c8_cache_score_formula_and_overflow :
    (filter_cached_claims eqRegexOracle witnessCriteria [witnessCachedClaim] =
        [witnessCacheMatch] ∧
      witnessCacheMatch.match_score = some 115 ∧ 100 < 115) ∧
    (∀ (O : RegexOracle) (criteria : SearchCriteria) (dbClaims : List CachedClaim),
      ∀ m ∈ filter_cached_claims O criteria dbClaims,
        ∃ ns ss, 20 ≤ ns ∧ ns ≤ 30 ∧
          m.match_score = some (30 + 10 + ns + 30 + subscriberBonus ss)) := by
  constructor
  · exact ⟨by decide, by decide, by norm_num⟩
  · intro O criteria dbClaims m hm
    unfold filter_cached_claims at hm
    split_ifs at hm
    all_goals try exact absurd hm (List.not_mem_nil m)
    all_goals
      (cases hp : parseDate criteria.date_of_service with
       | none => rw [hp] at hm; exact absurd hm (List.not_mem_nil m)
       | some target =>
         rw [hp] at hm
         dsimp only at hm
         first
         | exact absurd hm (List.not_mem_nil m)
         | (rcases mem_prioritizeMatches hm with h1 | ⟨m₀, hm₀, -, rfl⟩
            · have hmem := (mem_sortDescBy _ m _).mp h1
              rcases List.mem_filterMap.mp hmem with ⟨c, -, hc⟩
              exact (evalCachedClaim_some hc).2
            · have hmem := (mem_sortDescBy _ m₀ _).mp hm₀
              rcases List.mem_filterMap.mp hmem with ⟨c, -, hc⟩
              rw [setPendingTrue_match_score]
              exact (evalCachedClaim_some hc).2))

/-- C8, witness: the 115-point witness match instantiates the formula. -/
theorem c8_cache_score_formula_and_overflow_witness :
    witnessCacheMatch ∈ filter_cached_claims eqRegexOracle witnessCriteria [witnessCachedClaim] ∧
    ∃ ns ss, 20 ≤ ns ∧ ns ≤ 30 ∧
      witnessCacheMatch.match_score = some (30 + 10 + ns + 30 + subscriberBonus ss) :=
  ⟨by decide,
    c8_cache_score_formula_and_overflow.2 eqRegexOracle witnessCriteria
      [witnessCachedClaim] witnessCacheMatch (by decide)⟩

/-- C9: a criteria date of service that does not parse as a calendar date
makes both the cache path and the remote path return the empty list (the
total functions model the source's local handling: no exception escapes). -/
theorem c9_malformed_date_empty (O : RegexOracle) (env : ApiEnv)
    (criteria : SearchCriteria) (dbClaims : List CachedClaim)
    (h : parseDate criteria.date_of_service = none) :
    filter_cached_claims O criteria dbClaims = [] ∧
    find_matching_claims env O criteria = [] := by
  constructor
  · unfold filter_cached_claims
    split_ifs
    all_goals first | rfl | rw [h]
  · unfold find_matching_claims
    rw [h]

/-- C9, witness: the unparseable date `"not-a-date"` yields empty results on
both paths. -/
theorem c9_malformed_date_empty_witness :
    parseDate bogusDateCriteria.date_of_service = none ∧
    (filter_cached_claims eqRegexOracle bogusDateCriteria [witnessCachedClaim] = [] ∧
     find_matching_claims witnessEnv eqRegexOracle bogusDateCriteria = []) :=
  ⟨by decide,
    c9_malformed_date_empty eqRegexOracle witnessEnv bogusDateCriteria
      [witnessCachedClaim] (by decide)⟩

end PDE
